import Mathlib

/-!
702Greens Farm OS: the daily-log store, the request handlers and the notifier.

A shallow embedding of `src/server.js`.

* The table `daily_logs` is a list of rows (physical order) together with the
  counter of the `SERIAL` sequence behind `id`.
* The three SQL statements of the handlers are functions on that state.
* The handlers and the notifier are written in a small state-and-exception
  monad `Js`: the state carries the database and the trace of observable
  events, a thrown exception is a rejected promise.
* Everything outside the process (the clock, the time zone, database
  availability, the text-generation service, the SMS service) is an explicit
  environment `Env`.
-/

namespace FarmOS

/-! ## Data model -/

/-- A calendar date: the value of a `DATE` column. The `YYYY-MM-DD` text that
carries a date between the server and the database is identified with the
date it denotes. -/
structure Date where
  year : Int
  month : Nat
  day : Nat
deriving DecidableEq, Repr

/-- Chronological order on calendar dates (year, then month, then day). -/
def Date.le (a b : Date) : Prop :=
  a.year < b.year ∨
    (a.year = b.year ∧ (a.month < b.month ∨ (a.month = b.month ∧ a.day ≤ b.day)))

/-- Strict chronological order on calendar dates. -/
def Date.lt (a b : Date) : Prop :=
  a.year < b.year ∨
    (a.year = b.year ∧ (a.month < b.month ∨ (a.month = b.month ∧ a.day < b.day)))

instance : LE Date := ⟨Date.le⟩

instance : LT Date := ⟨Date.lt⟩

instance Date.decLe (a b : Date) : Decidable (a ≤ b) := by
  show Decidable (Date.le a b)
  unfold Date.le
  infer_instance

instance Date.decLt (a b : Date) : Decidable (a < b) := by
  show Decidable (Date.lt a b)
  unfold Date.lt
  infer_instance

/-- One row of `daily_logs`, column for column as in `CREATE TABLE`
(server.js 56-84). A `TEXT` column holds `none` for SQL NULL. -/
structure Row where
  id : Nat
  date : Date
  plan_harvest : Option String
  plan_plant : Option String
  plan_deliveries : Option String
  plan_other : Option String
  done_harvest : Option String
  done_plant : Option String
  done_deliveries : Option String
  done_other : Option String
  sop_complete : Option String
  sop_missed : Option String
  sop_why : Option String
  yield_on_target : Option String
  yield_crop : Option String
  yield_off_reason : Option String
  yield_action : Option String
  time_start : Option String
  time_end : Option String
  time_drain : Option String
  time_why : Option String
  tomorrow_harvest : Option String
  tomorrow_plant : Option String
  tomorrow_focus : Option String
  tomorrow_risk : Option String
  initials : Option String
  created_at : Int
deriving DecidableEq, Repr

/-- The `date` entry of a request body, as the `DATE` input of the database
reads it: the key is absent or JSON null (bound as SQL NULL), or it is text
that is no date, or it is text denoting the calendar date `d`. -/
inductive DateField where
  | missing
  | malformed (raw : String)
  | valid (d : Date)
deriving DecidableEq, Repr

/-- The request body `req.body` of `POST /api/logs`: the twenty-five keys the
handler destructures (server.js 123-149). A text key holds a string, or is
`none` when it is absent or null (both are bound as SQL NULL). -/
structure LogData where
  date : DateField
  plan_harvest : Option String
  plan_plant : Option String
  plan_deliveries : Option String
  plan_other : Option String
  done_harvest : Option String
  done_plant : Option String
  done_deliveries : Option String
  done_other : Option String
  sop_complete : Option String
  sop_missed : Option String
  sop_why : Option String
  yield_on_target : Option String
  yield_crop : Option String
  yield_off_reason : Option String
  yield_action : Option String
  time_start : Option String
  time_end : Option String
  time_drain : Option String
  time_why : Option String
  tomorrow_harvest : Option String
  tomorrow_plant : Option String
  tomorrow_focus : Option String
  tomorrow_risk : Option String
  initials : Option String
deriving DecidableEq, Repr

/-- One bound query parameter. -/
inductive Param where
  | date (d : DateField)
  | text (s : Option String)
deriving DecidableEq, Repr

/-- The array `values` of the POST handler (server.js 170-177): position
`k - 1` holds the parameter `$k`. -/
def values (body : LogData) : List Param :=
  [ .date body.date, .text body.plan_harvest, .text body.plan_plant,
    .text body.plan_deliveries, .text body.plan_other,
    .text body.done_harvest, .text body.done_plant, .text body.done_deliveries,
    .text body.done_other,
    .text body.sop_complete, .text body.sop_missed, .text body.sop_why,
    .text body.yield_on_target, .text body.yield_crop, .text body.yield_off_reason,
    .text body.yield_action,
    .text body.time_start, .text body.time_end, .text body.time_drain,
    .text body.time_why,
    .text body.tomorrow_harvest, .text body.tomorrow_plant, .text body.tomorrow_focus,
    .text body.tomorrow_risk, .text body.initials ]

/-- The parameter `$k` read as `DATE`. -/
def dateParam (v : List Param) (k : Nat) : DateField :=
  match v[k - 1]? with
  | some (.date d) => d
  | _ => .missing

/-- The parameter `$k` read as `TEXT`. -/
def textParam (v : List Param) (k : Nat) : Option String :=
  match v[k - 1]? with
  | some (.text s) => s
  | _ => none

/-! ## The database -/

/-- The database: the rows of `daily_logs` and the next value of the sequence
that feeds `id SERIAL`. -/
structure Db where
  rows : List Row
  nextId : Nat
deriving DecidableEq, Repr

/-- The largest value of the sequence behind `id SERIAL`, a four-byte integer. -/
def maxSerial : Nat := 2147483647

/-- The sequence is ahead of every stored id, as it is in every state the
program itself produces. -/
def SeqAhead (db : Db) : Prop := ∀ r ∈ db.rows, r.id < db.nextId

/-- No two rows share a date: the constraint `date DATE UNIQUE`. -/
def UniqueDates (rows : List Row) : Prop :=
  rows.Pairwise (fun a b => a.date ≠ b.date)

/-- The tuple proposed by `INSERT INTO daily_logs (date, plan_harvest, ...)
VALUES ($1, $2, ..., $25)` (server.js 152-159): the column list and the value
list are paired position by position, `id` and `created_at` take their
defaults. -/
def insertTuple (id : Nat) (d : Date) (now : Int) (v : List Param) : Row :=
  { id := id
    date := d
    plan_harvest := textParam v 2
    plan_plant := textParam v 3
    plan_deliveries := textParam v 4
    plan_other := textParam v 5
    done_harvest := textParam v 6
    done_plant := textParam v 7
    done_deliveries := textParam v 8
    done_other := textParam v 9
    sop_complete := textParam v 10
    sop_missed := textParam v 11
    sop_why := textParam v 12
    yield_on_target := textParam v 13
    yield_crop := textParam v 14
    yield_off_reason := textParam v 15
    yield_action := textParam v 16
    time_start := textParam v 17
    time_end := textParam v 18
    time_drain := textParam v 19
    time_why := textParam v 20
    tomorrow_harvest := textParam v 21
    tomorrow_plant := textParam v 22
    tomorrow_focus := textParam v 23
    tomorrow_risk := textParam v 24
    initials := textParam v 25
    created_at := now }

/-- The assignment list of `ON CONFLICT (date) DO UPDATE SET ...`
(server.js 160-166), applied to the conflicting row. -/
def doUpdateSet (v : List Param) (r : Row) : Row :=
  { r with
    plan_harvest := textParam v 2
    plan_plant := textParam v 3
    plan_deliveries := textParam v 4
    plan_other := textParam v 5
    done_harvest := textParam v 6
    done_plant := textParam v 7
    done_deliveries := textParam v 8
    done_other := textParam v 9
    sop_complete := textParam v 10
    sop_missed := textParam v 11
    sop_why := textParam v 12
    yield_on_target := textParam v 13
    yield_crop := textParam v 14
    yield_off_reason := textParam v 15
    yield_action := textParam v 16
    time_start := textParam v 17
    time_end := textParam v 18
    time_drain := textParam v 19
    time_why := textParam v 20
    tomorrow_harvest := textParam v 21
    tomorrow_plant := textParam v 22
    tomorrow_focus := textParam v 23
    tomorrow_risk := textParam v 24
    initials := textParam v 25 }

/-- The conflict arm of the upsert: look for the row that holds date `d`; when
there is one, rewrite it in place and report its id (`RETURNING id`). -/
def onConflictUpdate (d : Date) (v : List Param) : List Row → Option (Nat × List Row)
  | [] => none
  | r :: rs =>
    if r.date = d then some (r.id, doUpdateSet v r :: rs)
    else
      match onConflictUpdate d v rs with
      | some (i, rs') => some (i, r :: rs')
      | none => none

/-- Error text of a NULL in the `NOT NULL` column `date`. -/
def notNullViolation : String :=
  "null value in column \"date\" of relation \"daily_logs\" violates not-null constraint"

/-- Error text of a `$1` that the `DATE` input refuses (the wording of the
database varies with the text). -/
def invalidDateSyntax (raw : String) : String :=
  "invalid input syntax for type date: \"" ++ raw ++ "\""

/-- Error text of a text value that holds the character U+0000. -/
def invalidByteSequence : String :=
  "invalid byte sequence for encoding \"UTF8\": 0x00"

/-- Error text of an exhausted sequence. -/
def sequenceExhausted : String :=
  "nextval: reached maximum value of sequence \"daily_logs_id_seq\" (2147483647)"

/-- Error text of an id that is already stored. -/
def primaryKeyViolation : String :=
  "duplicate key value violates unique constraint \"daily_logs_pkey\""

/-- The character U+0000, the one character a `TEXT` value cannot hold. -/
def nul : Char := Char.ofNat 0

/-- The database refuses the parameter as `TEXT`: it is a string that holds
U+0000. -/
def Param.refused : Param → Bool
  | .text (some s) => s.data.contains nul
  | _ => false

/-- Some text parameter of the list is refused. -/
def refusedText (v : List Param) : Bool := v.any Param.refused

/-- Binding the parameters of the upsert, `$1` first: the values are sent as
the handler got them, and the database converts each to the type of its
column. A `$1` that is no date, or a text with U+0000, aborts the statement
before it runs. The result is the date of `$1`, `none` for NULL. -/
def bindParams (v : List Param) : Except String (Option Date) :=
  match dateParam v 1 with
  | .malformed raw => .error (invalidDateSyntax raw)
  | .missing => if refusedText v then .error invalidByteSequence else .ok none
  | .valid d => if refusedText v then .error invalidByteSequence else .ok (some d)

/-- The default of `id SERIAL`: the next value of the sequence. A value drawn
is consumed whatever happens to the statement afterwards; past `maxSerial` the
sequence fails. -/
def nextval (db : Db) : Except String Nat × Db :=
  if maxSerial < db.nextId then (.error sequenceExhausted, db)
  else (.ok db.nextId, { db with nextId := db.nextId + 1 })

/-- The statement of `POST /api/logs` (server.js 151-168):
`INSERT ... ON CONFLICT (date) DO UPDATE SET ... RETURNING id`.
The parameters are bound; the proposed tuple draws its id from the sequence;
a NULL date violates `NOT NULL`; a date already stored diverts to the update
of that row; a new date inserts the tuple, unless its id is already stored
(`PRIMARY KEY`). -/
def upsert (now : Int) (v : List Param) (db : Db) : Except String Nat × Db :=
  match bindParams v with
  | .error e => (.error e, db)
  | .ok date =>
    match nextval db with
    | (.error e, db1) => (.error e, db1)
    | (.ok id, db1) =>
      match date with
      | none => (.error notNullViolation, db1)
      | some d =>
        match onConflictUpdate d v db1.rows with
        | some (i, rows') => (.ok i, { db1 with rows := rows' })
        | none =>
          if db1.rows.any (fun r => r.id = id) then (.error primaryKeyViolation, db1)
          else (.ok id, { db1 with rows := db1.rows ++ [insertTuple id d now v] })

/-- The order of `ORDER BY date DESC`: `a` may come before `b`. -/
def dateDesc (a b : Row) : Prop := b.date ≤ a.date

instance dateDesc.dec : DecidableRel dateDesc := fun a b => Date.decLe b.date a.date

/-- The statement of `GET /api/logs` (server.js 100):
`SELECT * FROM daily_logs ORDER BY date DESC LIMIT 30`. Rows of equal date,
which the unique constraint excludes, would keep their stored order. The
comment above the handler says "GET all logs"; the statement stops at 30. -/
def selectRecent (db : Db) : List Row :=
  (db.rows.insertionSort dateDesc).take 30

/-- The statement of `GET /api/logs/today` (server.js 112):
`SELECT * FROM daily_logs WHERE date = $1`. A `$1` that is no date aborts the
statement; a NULL `$1` selects nothing. -/
def selectByDate (today : DateField) (db : Db) : Except String (List Row) × Db :=
  match today with
  | .malformed raw => (.error (invalidDateSyntax raw), db)
  | .missing => (.ok [], db)
  | .valid d => (.ok (db.rows.filter (fun r => r.date = d)), db)

/-! ## Clock -/

/-- Milliseconds in a day. -/
def msPerDay : Int := 86400000

/-- The calendar date of day number `z` (days since 1970-01-01) in the
proleptic Gregorian calendar. -/
def civilFromDays (z : Int) : Date :=
  let z := z + 719468
  let era := z / 146097
  let doe := z - era * 146097
  let yoe := (doe - doe / 1460 + doe / 36524 - doe / 146096) / 365
  let doy := doe - (365 * yoe + yoe / 4 - yoe / 100)
  let mp := (5 * doy + 2) / 153
  let m := if mp < 10 then mp + 3 else mp - 9
  { year := if m ≤ 2 then yoe + era * 400 + 1 else yoe + era * 400
    month := m.toNat
    day := (doy - (153 * mp + 2) / 5 + 1).toNat }

/-- The calendar date of the instant `t` (milliseconds since the epoch) in
UTC. -/
def utcDate (t : Int) : Date := civilFromDays (t / msPerDay)

/-- The calendar date of the instant `t` on a server whose local time is
`tzOffset` milliseconds ahead of UTC. -/
def localDate (tzOffset : Int) (t : Int) : Date := utcDate (t + tzOffset)

/-- The decimal digits of `n`, padded with zeros on the left to `width`. -/
def padZero (width n : Nat) : String :=
  String.mk (List.replicate (width - (Nat.repr n).length) '0') ++ Nat.repr n

/-- The text `new Date(t).toISOString().split('T')[0]` (server.js 111): the
UTC date as `YYYY-MM-DD`, with a sign and six digits for a year outside
0000-9999. -/
def toISODate (t : Int) : String :=
  (if 0 ≤ (utcDate t).year ∧ (utcDate t).year ≤ 9999 then padZero 4 (utcDate t).year.toNat
    else if (utcDate t).year < 0 then "-" ++ padZero 6 (utcDate t).year.natAbs
    else "+" ++ padZero 6 (utcDate t).year.toNat)
  ++ "-" ++ padZero 2 (utcDate t).month ++ "-" ++ padZero 2 (utcDate t).day

/-- The parameter `$1` of `GET /api/logs/today`: the text `toISODate t` as the
`DATE` input of the database reads it. A four-digit year from 0001 to 9999 is
read as that date; the year 0000 and the signed six-digit years are refused. -/
def todayParam (t : Int) : DateField :=
  if 1 ≤ (utcDate t).year ∧ (utcDate t).year ≤ 9999 then .valid (utcDate t)
  else .malformed (toISODate t)

/-! ## The world outside the process -/

/-- A content block of a generated message; `text` is `none` for a block that
carries no text. -/
structure ContentBlock where
  text : Option String
deriving DecidableEq, Repr

/-- The object `client.messages.create` resolves to; `content` is `none` when
the property is missing. -/
structure Message where
  content : Option (List ContentBlock)
deriving DecidableEq, Repr

/-- The HTTP response `fetch` resolves to: the flag `response.ok` and the
outcome of reading `response.text()`. -/
structure FetchResponse where
  ok : Bool
  text : Except String String

/-- Everything the handlers take from outside the process. A rejected promise
is `Except.error` with the message of the error. -/
structure Env where
  /-- The wall clock, milliseconds since the epoch. -/
  now : Int
  /-- The server time zone, milliseconds ahead of UTC. -/
  tzOffset : Int
  /-- A failure of the database to run a statement at all (connection lost,
  table missing), with its message. -/
  dbFault : Option String
  /-- The outcome of `client.messages.create`. -/
  llm : Except String Message
  /-- The outcome of the `k`-th call of `fetch`, counted from zero. -/
  sms : Nat → Except String FetchResponse
  /-- The variable `process.env.YOUR_PHONE`. -/
  phoneVar : Option String

/-- The constant `YOUR_PHONE` (server.js 16). -/
def YOUR_PHONE (env : Env) : String :=
  match env.phoneVar with
  | some s => if s = "" then "2132215504" else s
  | none => "2132215504"

/-- The body the handlers send. A row stands for the row selected; its
rendering as JSON is not modelled. -/
inductive Response where
  /-- The reply `res.json({ success: true, id })`. -/
  | success (id : Nat)
  /-- The reply `res.json(rows)`. -/
  | rows (rs : List Row)
  /-- The reply `res.json(row)`, `none` for `null`. -/
  | row (r : Option Row)
  /-- The reply `res.status(status).json({ error: message })`. -/
  | error (status : Nat) (message : String)
deriving DecidableEq, Repr

/-- The observable events of a request, in the order they occur. -/
inductive Event where
  /-- The call `pool.query(...)` is issued. -/
  | dbQuery
  /-- The promise of `pool.query` settles: fulfilled (`true`) or rejected. -/
  | dbSettled (ok : Bool)
  /-- The function `analyzeDayAndSendText` is entered. -/
  | notifierStart
  /-- The call `client.messages.create(...)` is made. -/
  | llmCall
  /-- The call `fetch` to the SMS service, with `to` and `body` of its payload. -/
  | smsCall (dest body : String)
  /-- A line on `console.error`. -/
  | consoleError (line : String)
  /-- The response is sent. -/
  | respond (r : Response)
deriving DecidableEq, Repr

/-- The mutable state: the database, the trace so far, and the number of
`fetch` calls made. -/
structure World where
  db : Db
  trace : List Event
  fetches : Nat
deriving DecidableEq, Repr

/-- The state at the start of a request. -/
def World.init (db : Db) : World := { db := db, trace := [], fetches := 0 }

/-! ## The monad of handler code -/

/-- A computation of the server: it reads and changes the world, and either
returns a value or throws the message of an error. An `async` function is such
a computation; a rejected promise is a thrown error. -/
def Js (α : Type) : Type := World → Except String α × World

/-- Return a value. -/
def Js.pure {α : Type} (a : α) : Js α := fun w => (.ok a, w)

/-- Sequence two computations (`await`). -/
def Js.bind {α β : Type} (m : Js α) (f : α → Js β) : Js β := fun w =>
  match m w with
  | (.ok a, w1) => f a w1
  | (.error e, w1) => (.error e, w1)

/-- Throw an error. -/
def Js.throw {α : Type} (e : String) : Js α := fun w => (.error e, w)

/-- The statement `try ... catch (error) ...`: what the body did to the world
before it threw stays done. -/
def Js.tryCatch {α : Type} (body : Js α) (handler : String → Js α) : Js α := fun w =>
  match body w with
  | (.ok a, w1) => (.ok a, w1)
  | (.error e, w1) => handler e w1

instance : Monad Js where
  pure := Js.pure
  bind := Js.bind

instance : MonadExcept String Js where
  throw := Js.throw
  tryCatch := Js.tryCatch

/-- Append an event to the trace. -/
def emit (e : Event) : Js Unit := fun w => (.ok (), { w with trace := w.trace ++ [e] })

/-- Settle a promise: return its value or throw its error. -/
def settle {α : Type} (r : Except String α) : Js α :=
  match r with
  | .ok a => pure a
  | .error e => throw e

/-- The call `await pool.query(...)` with the statement `stmt`. -/
def poolQuery {α : Type} (env : Env) (stmt : Db → Except String α × Db) : Js α := do
  emit .dbQuery
  match env.dbFault with
  | some e =>
    emit (.dbSettled false)
    throw e
  | none =>
    let r ← (fun w => (.ok (stmt w.db).1, { w with db := (stmt w.db).2 }) : Js (Except String α))
    emit (.dbSettled r.isOk)
    settle r

/-- The call `await fetch(...)` of `sendCloseMessage` (server.js 269-279). -/
def fetchSms (env : Env) (dest body : String) : Js FetchResponse := do
  emit (.smsCall dest body)
  let r ← (fun w => (.ok (env.sms w.fetches), { w with fetches := w.fetches + 1 }) :
    Js (Except String FetchResponse))
  settle r

/-! ## The notifier -/

/-- The function `sendCloseMessage` (server.js 265-290). -/
def sendCloseMessage (env : Env) (phoneNumber messageText : String) : Js Unit :=
  tryCatch
    (do
      let response ← fetchSms env phoneNumber messageText
      if response.ok then
        pure ()
      else do
        let error ← settle response.text
        emit (.consoleError ("Close API error: " ++ error)))
    (fun error => emit (.consoleError ("Error sending SMS: " ++ error)))

/-- The text of `message.content[0].text` (server.js 251): reading `[0]` of a
missing `content`, or `.text` of a missing first block, throws a TypeError
(the strings stand for the message of the engine); a first block without
`text` gives `undefined`, here `none`. -/
def firstText (message : Message) : Js (Option String) :=
  match message.content with
  | none => throw "Cannot read properties of undefined (reading \"0\")"
  | some [] => throw "Cannot read properties of undefined (reading \"text\")"
  | some (block :: _) => pure block.text

/-- A value inside a template literal: `undefined` prints as its name. -/
def interpolate (x : Option String) : String :=
  match x with
  | some s => s
  | none => "undefined"

/-- The fixed text sent when the analysis failed (server.js 259). -/
def fallbackText : String := "⚠️ Farm log received but Claude analysis failed. Check logs."

/-- The header of the summary message (server.js 255). -/
def farmHeader : String := "702Greens Daily Log\n\n"

/-- The function `analyzeDayAndSendText` after its first `await`
(server.js 239-260): the `try` block from the moment the call of
`client.messages.create` has settled, and the `catch` block. -/
def analyzeDayAndSendText.resume (env : Env) : Js Unit :=
  tryCatch
    (do
      let message ← settle env.llm
      let summary ← firstText message
      sendCloseMessage env (YOUR_PHONE env) (farmHeader ++ interpolate summary))
    (fun error => do
      emit (.consoleError ("Claude API error: " ++ error))
      sendCloseMessage env (YOUR_PHONE env) fallbackText)

/-- The function `analyzeDayAndSendText` (server.js 196-261). Calling it runs
it up to its first `await`: it logs its start and calls
`client.messages.create`; the value returned is the rest of the function, which
runs once that call has settled. The prompt is built from `logData` only; its
text is not modelled. -/
def analyzeDayAndSendText (env : Env) (_logData : LogData) : Js (Js Unit) := do
  emit .notifierStart
  emit .llmCall
  pure (analyzeDayAndSendText.resume env)

/-! ## The request handlers -/

/-- The handler of `GET /api/logs` (server.js 98-106). -/
def getLogs (env : Env) : Js Unit :=
  tryCatch
    (do
      let rows ← poolQuery env (fun db => (.ok (selectRecent db), db))
      emit (.respond (.rows rows)))
    (fun error => do
      emit (.consoleError ("Error fetching logs: " ++ error))
      emit (.respond (.error 500 error)))

/-- The handler of `GET /api/logs/today` (server.js 109-118). -/
def getToday (env : Env) : Js Unit :=
  tryCatch
    (do
      let today := todayParam env.now
      let rows ← poolQuery env (selectByDate today)
      emit (.respond (.row rows.head?)))
    (fun error => do
      emit (.consoleError ("Error fetching today log: " ++ error))
      emit (.respond (.error 500 error)))

/-- The handler of `POST /api/logs` (server.js 121-192). It returns the part
of the notifier that is still to run when the handler is done: the promise it
did not await, with the `.catch` attached to it. -/
def postLogs (env : Env) (body : LogData) : Js (Js Unit) :=
  tryCatch
    (do
      let id ← poolQuery env (upsert env.now (values body))
      let pending ← analyzeDayAndSendText env body
      let background : Js Unit := tryCatch pending (fun error =>
        emit (.consoleError ("Warning: Analysis failed but log was saved: " ++ error)))
      emit (.respond (.success id))
      pure background)
    (fun error => do
      emit (.consoleError ("Error saving log: " ++ error))
      emit (.respond (.error 500 error))
      pure (pure ()))

/-- Run a handler from the state `w` and then what it left in the background. -/
def runRequest (handler : Js (Js Unit)) (w : World) : World :=
  match handler w with
  | (.ok background, w1) => (background w1).2
  | (.error _, w1) => w1

/-- The database write of a `POST /api/logs` request, from the start of the
request: the outcome of `await pool.query(query, values)` and the state it
leaves. -/
def dbWrite (env : Env) (body : LogData) (db : Db) : Except String Nat × World :=
  poolQuery env (upsert env.now (values body)) (World.init db)

/-- A whole `POST /api/logs` request on the database `db`. -/
def post (env : Env) (body : LogData) (db : Db) : World :=
  runRequest (postLogs env body) (World.init db)

/-- The responses sent in a trace. -/
def responses (trace : List Event) : List Response :=
  trace.filterMap (fun e => match e with
    | .respond r => some r
    | _ => none)

/-- The SMS calls made in a trace, as pairs of destination and body. -/
def smsCalls (trace : List Event) : List (String × String) :=
  trace.filterMap (fun e => match e with
    | .smsCall dest body => some (dest, body)
    | _ => none)

/-- An event of the notifier: its start or one of its two outbound calls. -/
def Event.isNotifier : Event → Bool
  | .notifierStart => true
  | .llmCall => true
  | .smsCall _ _ => true
  | _ => false

/-- Every event of the list is a line on `console.error`. -/
def consoleOnly (evs : List Event) : Prop :=
  ∀ ev ∈ evs, ∃ line, ev = .consoleError line

/-- The twenty-four content columns of a row, in column order. -/
def Row.content (r : Row) : List (Option String) :=
  [ r.plan_harvest, r.plan_plant, r.plan_deliveries, r.plan_other,
    r.done_harvest, r.done_plant, r.done_deliveries, r.done_other,
    r.sop_complete, r.sop_missed, r.sop_why,
    r.yield_on_target, r.yield_crop, r.yield_off_reason, r.yield_action,
    r.time_start, r.time_end, r.time_drain, r.time_why,
    r.tomorrow_harvest, r.tomorrow_plant, r.tomorrow_focus, r.tomorrow_risk,
    r.initials ]

/-- The twenty-four content keys of a request body, in the same order. -/
def LogData.content (body : LogData) : List (Option String) :=
  [ body.plan_harvest, body.plan_plant, body.plan_deliveries, body.plan_other,
    body.done_harvest, body.done_plant, body.done_deliveries, body.done_other,
    body.sop_complete, body.sop_missed, body.sop_why,
    body.yield_on_target, body.yield_crop, body.yield_off_reason, body.yield_action,
    body.time_start, body.time_end, body.time_drain, body.time_why,
    body.tomorrow_harvest, body.tomorrow_plant, body.tomorrow_focus, body.tomorrow_risk,
    body.initials ]

instance UniqueDates.dec (rows : List Row) : Decidable (UniqueDates rows) := by
  unfold UniqueDates
  infer_instance

instance SeqAhead.dec (db : Db) : Decidable (SeqAhead db) := by
  unfold SeqAhead
  infer_instance

/-! ## Sample inputs -/

/-- A request body with the given date and planned harvest, in the shape of
the example of the specification. -/
def sampleLog (date : DateField) (plan_harvest : Option String) : LogData :=
  { date := date
    plan_harvest := plan_harvest
    plan_plant := none
    plan_deliveries := none
    plan_other := none
    done_harvest := some "48kg"
    done_plant := none
    done_deliveries := none
    done_other := none
    sop_complete := some "yes"
    sop_missed := none
    sop_why := none
    yield_on_target := some "yes"
    yield_crop := none
    yield_off_reason := none
    yield_action := none
    time_start := some "06:00"
    time_end := some "14:00"
    time_drain := none
    time_why := none
    tomorrow_harvest := none
    tomorrow_plant := none
    tomorrow_focus := none
    tomorrow_risk := none
    initials := none }

/-- The first of June 2024. -/
def june1 : Date := { year := 2024, month := 6, day := 1 }

/-- A stored row for the first of June 2024, with id 1. -/
def sampleRow : Row :=
  insertTuple 1 june1 1717225200000 (values (sampleLog (.valid june1) (some "40kg")))

/-- A store that holds the sample row only. -/
def sampleDb : Db := { rows := [sampleRow], nextId := 2 }

/-- The empty store of a fresh installation. -/
def emptyDb : Db := { rows := [], nextId := 1 }

/-- The second of June 2024. -/
def june2 : Date := { year := 2024, month := 6, day := 2 }

/-- A request body whose planned harvest holds the character U+0000. -/
def nulLog (date : DateField) : LogData := sampleLog date (some "a\x00b")

/-- The sample store after the sequence has delivered its last value. -/
def exhaustedDb : Db := { rows := [sampleRow], nextId := 2147483648 }

/-- The sample store with the sequence set back: its next value is the id of
the stored row. -/
def staleDb : Db := { rows := [sampleRow], nextId := 1 }

/-- A store of 35 rows, one per date from 2024-01-01 on (28 in January, 7 in
February), stored in a scrambled order; the row of the `j`-th date has id
`k + 1` where `j = 17 * k mod 35`. -/
def bigDb : Db :=
  { rows := (List.range 35).map (fun k =>
      insertTuple (k + 1)
        { year := 2024, month := 1 + (17 * k % 35) / 28, day := 1 + (17 * k % 35) % 28 }
        1717225200000
        (values (sampleLog .missing none)))
    nextId := 36 }

/-- An environment at 2024-06-02T02:00:00Z, on a server seven hours behind
UTC (where it is still the evening of the first of June), with a reachable
database and the given behaviour of the two services. -/
def sampleEnv (llm : Except String Message) (sms : Except String FetchResponse) : Env :=
  { now := 1717293600000
    tzOffset := -25200000
    dbFault := none
    llm := llm
    sms := fun _ => sms
    phoneVar := none }

/-- A generated message whose first block carries the given text, if any. -/
def sampleMessage (text : Option String) : Message := { content := some [{ text := text }] }

/-- An SMS service that accepts the message. -/
def smsAccepted : Except String FetchResponse := .ok { ok := true, text := .ok "" }

/-- An SMS service that answers with a non-success status. -/
def smsRefused : Except String FetchResponse := .ok { ok := false, text := .ok "Unauthorized" }

/-! ## Dates -/

theorem Date.le_def (a b : Date) : a ≤ b ↔
    a.year < b.year ∨
      (a.year = b.year ∧ (a.month < b.month ∨ (a.month = b.month ∧ a.day ≤ b.day))) :=
  Iff.rfl

theorem Date.lt_def (a b : Date) : a < b ↔
    a.year < b.year ∨
      (a.year = b.year ∧ (a.month < b.month ∨ (a.month = b.month ∧ a.day < b.day))) :=
  Iff.rfl

theorem Date.le_total (a b : Date) : a ≤ b ∨ b ≤ a := by
  simp only [Date.le_def]
  omega

theorem Date.le_trans {a b c : Date} (hab : a ≤ b) (hbc : b ≤ c) : a ≤ c := by
  simp only [Date.le_def] at *
  omega

theorem Date.lt_of_le_of_ne {a b : Date} (hab : a ≤ b) (hne : a ≠ b) : a < b := by
  have hne2 : ¬ (a.year = b.year ∧ a.month = b.month ∧ a.day = b.day) := by
    intro h
    apply hne
    cases a
    cases b
    simp only [Date.mk.injEq]
    simpa using h
  simp only [Date.le_def, Date.lt_def] at *
  omega

/-! ## The store -/

theorem uniqueDates_eq_of_mem {rows : List Row} (h : UniqueDates rows) {a b : Row}
    (ha : a ∈ rows) (hb : b ∈ rows) (hd : a.date = b.date) : a = b := by
  by_contra hne
  exact List.Pairwise.forall (fun _ _ hxy => Ne.symm hxy) h ha hb hne hd

theorem uniqueDates_of_map_eq {rs rs' : List Row} (hmap : rs'.map Row.date = rs.map Row.date)
    (h : UniqueDates rs) : UniqueDates rs' := by
  have h1 : (rs.map Row.date).Pairwise (fun a b => a ≠ b) := List.pairwise_map.mpr h
  rw [← hmap] at h1
  exact List.pairwise_map.mp h1

theorem uniqueDates_split {pre post : List Row} {r : Row}
    (h : UniqueDates (pre ++ r :: post)) :
    (∀ x ∈ pre, x.date ≠ r.date) ∧ (∀ x ∈ post, x.date ≠ r.date) := by
  unfold UniqueDates at h
  rw [List.pairwise_append] at h
  obtain ⟨_, hr, hcross⟩ := h
  rw [List.pairwise_cons] at hr
  exact ⟨fun x hx => hcross x hx r (by simp), fun x hx => Ne.symm (hr.1 x hx)⟩

theorem filter_date_split {pre post : List Row} {r : Row} {d : Date}
    (hpre : ∀ x ∈ pre, x.date ≠ d) (hpost : ∀ x ∈ post, x.date ≠ d) (hr : r.date = d) :
    (pre ++ r :: post).filter (fun x => x.date = d) = [r] := by
  have h1 : pre.filter (fun x => decide (x.date = d)) = [] := by
    rw [List.filter_eq_nil_iff]
    intro x hx
    simpa using hpre x hx
  have h2 : post.filter (fun x => decide (x.date = d)) = [] := by
    rw [List.filter_eq_nil_iff]
    intro x hx
    simpa using hpost x hx
  rw [List.filter_append, h1, List.filter_cons]
  simp [hr, h2]

theorem filter_date_absent {rows : List Row} {d : Date} (h : ∀ x ∈ rows, x.date ≠ d) :
    rows.filter (fun x => x.date = d) = [] := by
  rw [List.filter_eq_nil_iff]
  intro x hx
  simpa using h x hx

theorem doUpdateSet_date (v : List Param) (r : Row) : (doUpdateSet v r).date = r.date := rfl

theorem doUpdateSet_content (body : LogData) (r : Row) :
    (doUpdateSet (values body) r).content = body.content := rfl

theorem insertTuple_content (id : Nat) (d : Date) (now : Int) (body : LogData) :
    (insertTuple id d now (values body)).content = body.content := rfl

theorem onConflictUpdate_none {d : Date} {v : List Param} {rs : List Row} :
    onConflictUpdate d v rs = none ↔ ∀ r ∈ rs, r.date ≠ d := by
  induction rs with
  | nil => simp [onConflictUpdate]
  | cons r rs ih =>
    by_cases hr : r.date = d
    · simp [onConflictUpdate, hr]
    · cases hrec : onConflictUpdate d v rs with
      | none => simpa [onConflictUpdate, hr, hrec] using ih.mp hrec
      | some p =>
        have : ¬ ∀ x ∈ rs, x.date ≠ d := fun hall => by
          rw [ih.mpr hall] at hrec
          cases hrec
        simpa [onConflictUpdate, hr, hrec] using this

theorem onConflictUpdate_some {d : Date} {v : List Param} {rs rs' : List Row} {i : Nat}
    (h : onConflictUpdate d v rs = some (i, rs')) :
    ∃ pre r post, rs = pre ++ r :: post ∧ (∀ x ∈ pre, x.date ≠ d) ∧ r.date = d ∧
      i = r.id ∧ rs' = pre ++ doUpdateSet v r :: post := by
  induction rs generalizing rs' i with
  | nil => simp [onConflictUpdate] at h
  | cons r rs ih =>
    by_cases hr : r.date = d
    · simp only [onConflictUpdate, hr, if_true, Option.some.injEq, Prod.mk.injEq] at h
      exact ⟨[], r, rs, rfl, by simp, hr, h.1.symm, h.2.symm⟩
    · cases hrec : onConflictUpdate d v rs with
      | none => simp [onConflictUpdate, hr, hrec] at h
      | some p =>
        obtain ⟨j, rs2⟩ := p
        simp only [onConflictUpdate, hr, if_false, hrec, Option.some.injEq, Prod.mk.injEq] at h
        obtain ⟨pre, r0, post, hsplit, hpre, hr0, hj, hrs2⟩ := ih hrec
        refine ⟨r :: pre, r0, post, by simp [hsplit], ?_, hr0, by omega, by simp [← h.2, hrs2]⟩
        intro x hx
        rcases List.mem_cons.mp hx with rfl | hx
        · exact hr
        · exact hpre x hx

theorem dateParam_values (body : LogData) : dateParam (values body) 1 = body.date := rfl

theorem bindParams_valid (body : LogData) (d : Date) (hdate : body.date = .valid d)
    (htext : refusedText (values body) = false) :
    bindParams (values body) = .ok (some d) := by
  simp [bindParams, dateParam_values, hdate, htext]

theorem nextval_ready (db : Db) (hseq : db.nextId ≤ maxSerial) :
    nextval db = (.ok db.nextId, { db with nextId := db.nextId + 1 }) := by
  have : ¬ maxSerial < db.nextId := by omega
  simp [nextval, this]

theorem fresh_of_seqAhead {db : Db} (h : SeqAhead db) : ∀ r ∈ db.rows, r.id ≠ db.nextId :=
  fun r hr => Nat.ne_of_lt (h r hr)

/-- The upsert with a date not yet stored appends one tuple. -/
theorem upsert_absent (now : Int) (body : LogData) (d : Date) (db : Db)
    (hdate : body.date = .valid d) (htext : refusedText (values body) = false)
    (hseq : db.nextId ≤ maxSerial) (hfresh : ∀ r ∈ db.rows, r.id ≠ db.nextId)
    (habs : ∀ r ∈ db.rows, r.date ≠ d) :
    upsert now (values body) db =
      (.ok db.nextId,
        { rows := db.rows ++ [insertTuple db.nextId d now (values body)]
          nextId := db.nextId + 1 }) := by
  have hnone := (onConflictUpdate_none (v := values body)).mpr habs
  have hkey : (db.rows.any fun r => decide (r.id = db.nextId)) = false := by
    rw [List.any_eq_false]
    intro r hr
    simpa using hfresh r hr
  simp only [upsert, bindParams_valid body d hdate htext, nextval_ready db hseq, hnone, hkey]
  simp

/-- The upsert with a date already stored rewrites the first row of that date. -/
theorem upsert_present (now : Int) (body : LogData) (d : Date) (db : Db)
    (hdate : body.date = .valid d) (htext : refusedText (values body) = false)
    (hseq : db.nextId ≤ maxSerial) (hpres : ∃ r ∈ db.rows, r.date = d) :
    ∃ pre r post, db.rows = pre ++ r :: post ∧ (∀ x ∈ pre, x.date ≠ d) ∧ r.date = d ∧
      upsert now (values body) db =
        (.ok r.id,
          { rows := pre ++ doUpdateSet (values body) r :: post, nextId := db.nextId + 1 }) := by
  cases hrec : onConflictUpdate d (values body) db.rows with
  | none =>
    obtain ⟨r, hr, hrd⟩ := hpres
    exact absurd hrd (onConflictUpdate_none.mp hrec r hr)
  | some p =>
    obtain ⟨i, rs'⟩ := p
    obtain ⟨pre, r, post, hsplit, hpre, hr, hi, hrs'⟩ := onConflictUpdate_some hrec
    refine ⟨pre, r, post, hsplit, hpre, hr, ?_⟩
    simp only [upsert, bindParams_valid body d hdate htext, nextval_ready db hseq, hrec, hi, hrs']

/-- What an upsert can do to the rows: nothing, rewrite the row of a stored
date, or append a tuple of a date not stored. -/
theorem upsert_rows_cases (now : Int) (v : List Param) (db : Db) :
    (upsert now v db).2.rows = db.rows ∨
    (∃ d i rs', onConflictUpdate d v db.rows = some (i, rs') ∧ (upsert now v db).2.rows = rs') ∨
    (∃ d id, (∀ r ∈ db.rows, r.date ≠ d) ∧
      (upsert now v db).2.rows = db.rows ++ [insertTuple id d now v]) := by
  cases hb : bindParams v with
  | error e => exact .inl (by simp [upsert, hb])
  | ok date =>
    by_cases hs : maxSerial < db.nextId
    · exact .inl (by simp [upsert, hb, nextval, hs])
    · cases date with
      | none => exact .inl (by simp [upsert, hb, nextval, hs])
      | some d =>
        cases hc : onConflictUpdate d v db.rows with
        | some p =>
          obtain ⟨i, rs'⟩ := p
          exact .inr (.inl ⟨d, i, rs', hc, by simp [upsert, hb, nextval, hs, hc]⟩)
        | none =>
          by_cases hk : (db.rows.any fun r => decide (r.id = db.nextId)) = true
          · exact .inl (by simp [upsert, hb, nextval, hs, hc, hk])
          · exact .inr (.inr ⟨d, db.nextId, onConflictUpdate_none.mp hc,
              by simp [upsert, hb, nextval, hs, hc, hk]⟩)

theorem upsert_uniqueDates (now : Int) (v : List Param) (db : Db)
    (h : UniqueDates db.rows) : UniqueDates (upsert now v db).2.rows := by
  rcases upsert_rows_cases now v db with hr | ⟨d, i, rs', hc, hr⟩ | ⟨d, id, habs, hr⟩
  · rw [hr]
    exact h
  · rw [hr]
    obtain ⟨pre, r, post, hsplit, _, _, _, hrs'⟩ := onConflictUpdate_some hc
    apply uniqueDates_of_map_eq _ h
    simp [hsplit, hrs', doUpdateSet_date]
  · rw [hr]
    unfold UniqueDates
    rw [List.pairwise_append]
    refine ⟨h, List.pairwise_singleton _ _, ?_⟩
    intro a ha b hb
    rw [List.mem_singleton] at hb
    subst hb
    exact habs a ha

/-- An upsert that succeeds with a valid date leaves a row of that date with
the returned id and the submitted content. -/
theorem upsert_ok_stored (now : Int) (body : LogData) (d : Date) (db : Db) (i : Nat)
    (hdate : body.date = .valid d) (hok : (upsert now (values body) db).1 = .ok i) :
    ∃ r, r ∈ (upsert now (values body) db).2.rows ∧
      r.date = d ∧ r.id = i ∧ r.content = body.content := by
  by_cases htext : refusedText (values body) = false
  swap
  · simp [upsert, bindParams, dateParam_values, hdate, htext] at hok
  by_cases hseq : db.nextId ≤ maxSerial
  swap
  · have : maxSerial < db.nextId := by omega
    simp [upsert, bindParams_valid body d hdate htext, nextval, this] at hok
  by_cases hpres : ∃ r ∈ db.rows, r.date = d
  · obtain ⟨pre, r, post, _, _, hr, hrun⟩ := upsert_present now body d db hdate htext hseq hpres
    rw [hrun] at hok ⊢
    simp only [Except.ok.injEq] at hok
    exact ⟨doUpdateSet (values body) r, by simp, hr, hok, rfl⟩
  · have habs : ∀ r ∈ db.rows, r.date ≠ d := fun r hr hrd => hpres ⟨r, hr, hrd⟩
    by_cases hfresh : ∀ r ∈ db.rows, r.id ≠ db.nextId
    · rw [upsert_absent now body d db hdate htext hseq hfresh habs] at hok ⊢
      simp only [Except.ok.injEq] at hok
      exact ⟨insertTuple db.nextId d now (values body), by simp, rfl, hok, rfl⟩
    · have hnone := (onConflictUpdate_none (v := values body)).mpr habs
      have hkey : (db.rows.any fun r => decide (r.id = db.nextId)) = true := by
        rw [List.any_eq_true]
        push_neg at hfresh
        obtain ⟨r, hr, hrid⟩ := hfresh
        exact ⟨r, hr, by simpa using hrid⟩
      simp [upsert, bindParams_valid body d hdate htext, nextval_ready db hseq, hnone,
        hkey] at hok

/-- An upsert with a valid date and accepted text, on a sequence that is
ready, succeeds and leaves a row of that date with the returned id and the
submitted content. -/
theorem upsert_valid (now : Int) (body : LogData) (d : Date) (db : Db)
    (hdate : body.date = .valid d) (htext : refusedText (values body) = false)
    (hseq : db.nextId ≤ maxSerial) (hahead : SeqAhead db) :
    ∃ i r, (upsert now (values body) db).1 = .ok i ∧ r ∈ (upsert now (values body) db).2.rows ∧
      r.date = d ∧ r.id = i ∧ r.content = body.content := by
  have hex : ∃ i, (upsert now (values body) db).1 = .ok i := by
    by_cases hpres : ∃ r ∈ db.rows, r.date = d
    · obtain ⟨pre, r, post, _, _, _, hrun⟩ :=
        upsert_present now body d db hdate htext hseq hpres
      exact ⟨r.id, by rw [hrun]⟩
    · have habs : ∀ r ∈ db.rows, r.date ≠ d := fun r hr hrd => hpres ⟨r, hr, hrd⟩
      exact ⟨db.nextId,
        by rw [upsert_absent now body d db hdate htext hseq (fresh_of_seqAhead hahead) habs]⟩
  obtain ⟨i, hi⟩ := hex
  obtain ⟨r, hr, hrd, hri, hrc⟩ := upsert_ok_stored now body d db i hdate hi
  exact ⟨i, r, hi, hr, hrd, hri, hrc⟩

/-- A successful upsert draws one value from the sequence. -/
theorem upsert_ok_nextId (now : Int) (v : List Param) (db : Db) (i : Nat)
    (hok : (upsert now v db).1 = .ok i) : (upsert now v db).2.nextId = db.nextId + 1 := by
  cases hb : bindParams v with
  | error e => simp [upsert, hb] at hok
  | ok date =>
    by_cases hs : maxSerial < db.nextId
    · simp [upsert, hb, nextval, hs] at hok
    · cases date with
      | none => simp [upsert, hb, nextval, hs] at hok
      | some d =>
        cases hc : onConflictUpdate d v db.rows with
        | some p => simp [upsert, hb, nextval, hs, hc]
        | none =>
          by_cases hk : (db.rows.any fun r => decide (r.id = db.nextId)) = true
          · simp [upsert, hb, nextval, hs, hc, hk] at hok
          · simp [upsert, hb, nextval, hs, hc, hk]

/-! ## Running computations -/

@[simp] theorem run_pure {α : Type} (a : α) (w : World) : (pure a : Js α) w = (.ok a, w) := rfl

@[simp] theorem run_bind {α β : Type} (m : Js α) (f : α → Js β) (w : World) :
    (m >>= f) w = match m w with
      | (.ok a, w1) => f a w1
      | (.error e, w1) => (.error e, w1) := rfl

@[simp] theorem run_throw {α : Type} (e : String) (w : World) :
    (throw e : Js α) w = (.error e, w) := rfl

@[simp] theorem run_tryCatch {α : Type} (body : Js α) (handler : String → Js α) (w : World) :
    (tryCatch body handler) w = match body w with
      | (.ok a, w1) => (.ok a, w1)
      | (.error e, w1) => handler e w1 := rfl

@[simp] theorem run_emit (e : Event) (w : World) :
    emit e w = (.ok (), { w with trace := w.trace ++ [e] }) := rfl

@[simp] theorem run_settle {α : Type} (r : Except String α) (w : World) :
    settle r w = (r, w) := by
  cases r <;> rfl

theorem consoleOnly_nil : consoleOnly [] := by
  intro ev h
  cases h

theorem consoleOnly_singleton (line : String) : consoleOnly [.consoleError line] := by
  intro ev h
  simp at h
  exact ⟨line, h⟩

theorem smsCalls_append (a b : List Event) : smsCalls (a ++ b) = smsCalls a ++ smsCalls b := by
  simp [smsCalls, List.filterMap_append]

theorem responses_append (a b : List Event) :
    responses (a ++ b) = responses a ++ responses b := by
  simp [responses, List.filterMap_append]

theorem smsCalls_consoleOnly {evs : List Event} (h : consoleOnly evs) : smsCalls evs = [] := by
  induction evs with
  | nil => rfl
  | cons e es ih =>
    obtain ⟨line, rfl⟩ := h e (by simp)
    have := ih (fun ev hev => h ev (by simp [hev]))
    simpa [smsCalls] using this

theorem responses_consoleOnly {evs : List Event} (h : consoleOnly evs) : responses evs = [] := by
  induction evs with
  | nil => rfl
  | cons e es ih =>
    obtain ⟨line, rfl⟩ := h e (by simp)
    have := ih (fun ev hev => h ev (by simp [hev]))
    simpa [responses] using this

theorem isNotifier_consoleOnly {evs : List Event} (h : consoleOnly evs) :
    ∀ ev ∈ evs, ev.isNotifier = false := by
  intro ev hev
  obtain ⟨line, rfl⟩ := h ev hev
  rfl

/-! ## The SMS step -/

theorem sendCloseMessage_run (env : Env) (p m : String) (w : World) :
    ∃ logs, sendCloseMessage env p m w =
        (.ok (), { db := w.db, trace := w.trace ++ .smsCall p m :: logs, fetches := w.fetches + 1 })
      ∧ consoleOnly logs := by
  cases h : env.sms w.fetches with
  | error e =>
    refine ⟨[.consoleError ("Error sending SMS: " ++ e)], ?_, consoleOnly_singleton _⟩
    simp [sendCloseMessage, fetchSms, h]
  | ok resp =>
    cases hok : resp.ok with
    | true =>
      refine ⟨[], ?_, consoleOnly_nil⟩
      simp [sendCloseMessage, fetchSms, h, hok]
    | false =>
      cases ht : resp.text with
      | error e =>
        refine ⟨[.consoleError ("Error sending SMS: " ++ e)], ?_, consoleOnly_singleton _⟩
        simp [sendCloseMessage, fetchSms, h, hok, ht]
      | ok body =>
        refine ⟨[.consoleError ("Close API error: " ++ body)], ?_, consoleOnly_singleton _⟩
        simp [sendCloseMessage, fetchSms, h, hok, ht]

/-! ## The notifier -/

theorem resume_summary (env : Env) (w : World) (block : ContentBlock) (rest : List ContentBlock)
    (hllm : env.llm = .ok ⟨some (block :: rest)⟩) :
    ∃ logs, analyzeDayAndSendText.resume env w =
        (.ok (), { db := w.db
                   trace := w.trace ++
                     .smsCall (YOUR_PHONE env) (farmHeader ++ interpolate block.text) :: logs
                   fetches := w.fetches + 1 })
      ∧ consoleOnly logs := by
  obtain ⟨logs, hrun, hlogs⟩ :=
    sendCloseMessage_run env (YOUR_PHONE env) (farmHeader ++ interpolate block.text) w
  refine ⟨logs, ?_, hlogs⟩
  simp [analyzeDayAndSendText.resume, hllm, firstText, hrun]

theorem resume_fallback (env : Env) (w : World)
    (hllm : (∃ e, env.llm = .error e) ∨ env.llm = .ok ⟨none⟩ ∨ env.llm = .ok ⟨some []⟩) :
    ∃ line logs, analyzeDayAndSendText.resume env w =
        (.ok (), { db := w.db
                   trace := w.trace ++
                     .consoleError line :: .smsCall (YOUR_PHONE env) fallbackText :: logs
                   fetches := w.fetches + 1 })
      ∧ consoleOnly logs := by
  rcases hllm with ⟨e, hllm⟩ | hllm | hllm
  · obtain ⟨logs, hrun, hlogs⟩ := sendCloseMessage_run env (YOUR_PHONE env) fallbackText
      { w with trace := w.trace ++ [.consoleError ("Claude API error: " ++ e)] }
    refine ⟨"Claude API error: " ++ e, logs, ?_, hlogs⟩
    simp at hrun
    simp [analyzeDayAndSendText.resume, hllm, hrun]
  · obtain ⟨logs, hrun, hlogs⟩ := sendCloseMessage_run env (YOUR_PHONE env) fallbackText
      { w with trace := w.trace ++ [.consoleError ("Claude API error: " ++
          "Cannot read properties of undefined (reading \"0\")")] }
    refine ⟨"Claude API error: " ++ "Cannot read properties of undefined (reading \"0\")", logs, ?_, hlogs⟩
    simp at hrun
    simp [analyzeDayAndSendText.resume, hllm, firstText, hrun]
  · obtain ⟨logs, hrun, hlogs⟩ := sendCloseMessage_run env (YOUR_PHONE env) fallbackText
      { w with trace := w.trace ++ [.consoleError ("Claude API error: " ++
          "Cannot read properties of undefined (reading \"text\")")] }
    refine ⟨"Claude API error: " ++ "Cannot read properties of undefined (reading \"text\")", logs, ?_, hlogs⟩
    simp at hrun
    simp [analyzeDayAndSendText.resume, hllm, firstText, hrun]

theorem llm_cases (r : Except String Message) :
    ((∃ e, r = .error e) ∨ r = .ok ⟨none⟩ ∨ r = .ok ⟨some []⟩) ∨
      ∃ block rest, r = .ok ⟨some (block :: rest)⟩ := by
  rcases r with e | ⟨_ | _ | ⟨block, rest⟩⟩
  · exact .inl (.inl ⟨e, rfl⟩)
  · exact .inl (.inr (.inl rfl))
  · exact .inl (.inr (.inr rfl))
  · exact .inr ⟨block, rest, rfl⟩

/-- Whatever the two services do, the resumed notifier returns normally, makes
one SMS call to `YOUR_PHONE`, sends no response and leaves the database alone. -/
theorem resume_run (env : Env) (w : World) :
    ∃ pre text logs, analyzeDayAndSendText.resume env w =
        (.ok (), { db := w.db
                   trace := w.trace ++ (pre ++ .smsCall (YOUR_PHONE env) text :: logs)
                   fetches := w.fetches + 1 })
      ∧ consoleOnly pre ∧ consoleOnly logs := by
  rcases llm_cases env.llm with h | ⟨block, rest, h⟩
  · obtain ⟨line, logs, hrun, hlogs⟩ := resume_fallback env w h
    exact ⟨[.consoleError line], fallbackText, logs, by simpa using hrun,
      consoleOnly_singleton _, hlogs⟩
  · obtain ⟨logs, hrun, hlogs⟩ := resume_summary env w block rest h
    exact ⟨[], _, logs, by simpa using hrun, consoleOnly_nil, hlogs⟩

theorem notifier_run (env : Env) (logData : LogData) (w : World) :
    runRequest (analyzeDayAndSendText env logData) w =
      (analyzeDayAndSendText.resume env
        { w with trace := w.trace ++ [.notifierStart, .llmCall] }).2 := by
  simp [runRequest, analyzeDayAndSendText]

/-! ## The POST handler -/

theorem poolQuery_run {α : Type} (env : Env) (stmt : Db → Except String α × Db) (w : World) :
    poolQuery env stmt w =
      match env.dbFault with
      | some e => (.error e, { w with trace := w.trace ++ [.dbQuery, .dbSettled false] })
      | none =>
        ((stmt w.db).1,
          { db := (stmt w.db).2
            trace := w.trace ++ [.dbQuery, .dbSettled (stmt w.db).1.isOk]
            fetches := w.fetches }) := by
  cases h : env.dbFault with
  | some e => simp [poolQuery, h]
  | none =>
    cases hs : (stmt w.db).1 <;> simp [poolQuery, h, hs]

theorem dbWrite_fault (env : Env) (body : LogData) (db : Db) (e : String)
    (h : env.dbFault = some e) :
    dbWrite env body db =
      (.error e, { db := db, trace := [.dbQuery, .dbSettled false], fetches := 0 }) := by
  simp [dbWrite, poolQuery_run, h, World.init]

theorem dbWrite_run (env : Env) (body : LogData) (db : Db) (h : env.dbFault = none) :
    dbWrite env body db =
      ((upsert env.now (values body) db).1,
        { db := (upsert env.now (values body) db).2
          trace := [.dbQuery, .dbSettled (upsert env.now (values body) db).1.isOk]
          fetches := 0 }) := by
  simp [dbWrite, poolQuery_run, h, World.init]

theorem dbWrite_trace (env : Env) (body : LogData) (db : Db) :
    (dbWrite env body db).2.trace = [.dbQuery, .dbSettled (dbWrite env body db).1.isOk] ∧
      (dbWrite env body db).2.fetches = 0 := by
  cases h : env.dbFault with
  | some e => simp [dbWrite_fault env body db e h, Except.isOk, Except.toBool]
  | none => simp [dbWrite_run env body db h]

theorem post_of_write_error (env : Env) (body : LogData) (db : Db) (e : String)
    (h : (dbWrite env body db).1 = .error e) :
    post env body db =
      { db := (dbWrite env body db).2.db
        trace := [.dbQuery, .dbSettled false, .consoleError ("Error saving log: " ++ e),
          .respond (.error 500 e)]
        fetches := 0 } := by
  obtain ⟨ht, hf⟩ := dbWrite_trace env body db
  rw [h] at ht
  generalize hq : dbWrite env body db = q at h ht hf
  obtain ⟨r, w1⟩ := q
  simp only at h ht hf
  subst h
  unfold dbWrite at hq
  simp only [post, runRequest, postLogs, run_tryCatch, run_bind, hq, run_emit, run_pure]
  simp [ht, hf, Except.isOk, Except.toBool]

theorem post_of_write_ok (env : Env) (body : LogData) (db : Db) (i : Nat)
    (h : (dbWrite env body db).1 = .ok i) :
    ∃ pre text logs, post env body db =
      { db := (dbWrite env body db).2.db
        trace := [.dbQuery, .dbSettled true, .notifierStart, .llmCall, .respond (.success i)] ++
          (pre ++ .smsCall (YOUR_PHONE env) text :: logs)
        fetches := 1 } ∧ consoleOnly pre ∧ consoleOnly logs := by
  obtain ⟨ht, hf⟩ := dbWrite_trace env body db
  rw [h] at ht
  generalize hq : dbWrite env body db = q at h ht hf
  obtain ⟨r, w1⟩ := q
  simp only at h ht hf
  subst h
  obtain ⟨pre, text, logs, hrun, hpre, hlogs⟩ := resume_run env
    { db := w1.db
      trace := [.dbQuery, .dbSettled true, .notifierStart, .llmCall, .respond (.success i)]
      fetches := 0 }
  refine ⟨pre, text, logs, ?_, hpre, hlogs⟩
  unfold dbWrite at hq
  simp only [post, runRequest, postLogs, analyzeDayAndSendText, run_tryCatch, run_bind, hq,
    run_emit, run_pure]
  simp [ht, hf, Except.isOk, Except.toBool, hrun]

theorem post_ok (env : Env) (body : LogData) (db : Db) (i : Nat)
    (h : (dbWrite env body db).1 = .ok i) :
    responses (post env body db).trace = [.success i] ∧
      (post env body db).db = (dbWrite env body db).2.db ∧
      ∃ evs, (post env body db).trace = .dbQuery :: .dbSettled true :: evs := by
  obtain ⟨pre, text, logs, hrun, hpre, hlogs⟩ := post_of_write_ok env body db i h
  rw [hrun]
  refine ⟨?_, rfl, _, rfl⟩
  simp only [responses_append]
  rw [responses_consoleOnly hpre]
  have hl := responses_consoleOnly hlogs
  simp only [responses, List.filterMap_cons, List.filterMap_nil] at hl ⊢
  simp [hl]

theorem post_success_write (env : Env) (body : LogData) (db : Db) (i : Nat)
    (h : responses (post env body db).trace = [.success i]) :
    (dbWrite env body db).1 = .ok i := by
  cases hw : (dbWrite env body db).1 with
  | ok j =>
    have hj : responses (post env body db).trace = [.success j] := by
      obtain ⟨pre, text, logs, hrun, hpre, hlogs⟩ := post_of_write_ok env body db j hw
      rw [hrun]
      simp only [responses_append]
      rw [responses_consoleOnly hpre]
      have hl := responses_consoleOnly hlogs
      simp only [responses, List.filterMap_cons, List.filterMap_nil] at hl ⊢
      simp [hl]
    rw [hj] at h
    simp only [List.cons.injEq, Response.success.injEq, and_true] at h
    rw [h]
  | error e =>
    rw [post_of_write_error env body db e hw] at h
    simp [responses] at h

theorem post_error (env : Env) (body : LogData) (db : Db) (e : String)
    (h : (dbWrite env body db).1 = .error e) :
    responses (post env body db).trace = [.error 500 e] ∧
      (post env body db).db = (dbWrite env body db).2.db ∧
      ∀ ev ∈ (post env body db).trace, ev.isNotifier = false := by
  rw [post_of_write_error env body db e h]
  refine ⟨by simp [responses], rfl, ?_⟩
  intro ev hev
  simp only [List.mem_cons, List.mem_singleton, List.not_mem_nil, or_false] at hev
  rcases hev with rfl | rfl | rfl | rfl <;> rfl

theorem dbWrite_db_rows_of_missing (env : Env) (body : LogData) (db : Db)
    (hdate : body.date = .missing) :
    (∃ e, (dbWrite env body db).1 = .error e) ∧ (dbWrite env body db).2.db.rows = db.rows := by
  cases h : env.dbFault with
  | some e => simp [dbWrite_fault env body db e h]
  | none =>
    rw [dbWrite_run env body db h]
    by_cases ht : refusedText (values body) = true
    · simp [upsert, bindParams, dateParam_values, hdate, ht]
    · by_cases hs : maxSerial < db.nextId
      · simp [upsert, bindParams, dateParam_values, hdate, ht, nextval, hs]
      · simp [upsert, bindParams, dateParam_values, hdate, ht, nextval, hs]

theorem dbWrite_ok_upsert (env : Env) (body : LogData) (db : Db) (i : Nat)
    (h : (dbWrite env body db).1 = .ok i) :
    env.dbFault = none ∧ (upsert env.now (values body) db).1 = .ok i := by
  rcases Option.eq_none_or_eq_some env.dbFault with hf | ⟨e, hf⟩
  · rw [dbWrite_run env body db hf] at h
    exact ⟨hf, h⟩
  · rw [dbWrite_fault env body db e hf] at h
    cases h

theorem getLogs_run (env : Env) (db : Db) (h : env.dbFault = none) :
    (getLogs env (World.init db)).2.trace =
      [.dbQuery, .dbSettled true, .respond (.rows (selectRecent db))] := by
  simp [getLogs, poolQuery_run, h, World.init, Except.isOk, Except.toBool]

theorem todayParam_valid (t : Int)
    (hyear : 1 ≤ (utcDate t).year ∧ (utcDate t).year ≤ 9999) :
    todayParam t = .valid (utcDate t) := by
  simp [todayParam, hyear]

theorem getToday_run (env : Env) (db : Db) (h : env.dbFault = none)
    (hyear : 1 ≤ (utcDate env.now).year ∧ (utcDate env.now).year ≤ 9999) :
    (getToday env (World.init db)).2.trace =
      [.dbQuery, .dbSettled true,
        .respond (.row (db.rows.filter (fun r => r.date = utcDate env.now)).head?)] := by
  simp [getToday, poolQuery_run, h, World.init, Except.isOk, Except.toBool,
    todayParam_valid env.now hyear, selectByDate]

theorem filter_date_present {rows : List Row} {r : Row} (huniq : UniqueDates rows)
    (hr : r ∈ rows) : rows.filter (fun x => x.date = r.date) = [r] := by
  obtain ⟨pre, post, hsplit⟩ := List.append_of_mem hr
  rw [hsplit] at huniq
  obtain ⟨hpre, hpost⟩ := uniqueDates_split huniq
  rw [hsplit]
  exact filter_date_split hpre hpost rfl

theorem settled_before_notifier {rest pre post_ : List Event} {ev : Event}
    (h : Event.dbQuery :: Event.dbSettled true :: rest = pre ++ ev :: post_)
    (hev : ev.isNotifier = true) : Event.dbSettled true ∈ pre := by
  cases pre with
  | nil =>
    simp only [List.nil_append, List.cons.injEq] at h
    rw [← h.1] at hev
    cases hev
  | cons a pre =>
    cases pre with
    | nil =>
      simp only [List.cons_append, List.nil_append, List.cons.injEq] at h
      rw [← h.2.1] at hev
      cases hev
    | cons b pre =>
      simp only [List.cons_append, List.cons.injEq] at h
      simp [← h.2.1]

theorem notifier_summary (env : Env) (logData : LogData) (w : World) (block : ContentBlock)
    (rest : List ContentBlock) (hllm : env.llm = .ok ⟨some (block :: rest)⟩) :
    ∃ logs, runRequest (analyzeDayAndSendText env logData) w =
        { db := w.db
          trace := w.trace ++ (.notifierStart :: .llmCall ::
            .smsCall (YOUR_PHONE env) (farmHeader ++ interpolate block.text) :: logs)
          fetches := w.fetches + 1 }
      ∧ consoleOnly logs := by
  obtain ⟨logs, hrun, hlogs⟩ := resume_summary env
    { w with trace := w.trace ++ [.notifierStart, .llmCall] } block rest hllm
  refine ⟨logs, ?_, hlogs⟩
  rw [notifier_run, hrun]
  simp

theorem notifier_fallback (env : Env) (logData : LogData) (w : World)
    (hllm : (∃ e, env.llm = .error e) ∨ env.llm = .ok ⟨none⟩ ∨ env.llm = .ok ⟨some []⟩) :
    ∃ line logs, runRequest (analyzeDayAndSendText env logData) w =
        { db := w.db
          trace := w.trace ++ (.notifierStart :: .llmCall :: .consoleError line ::
            .smsCall (YOUR_PHONE env) fallbackText :: logs)
          fetches := w.fetches + 1 }
      ∧ consoleOnly logs := by
  obtain ⟨line, logs, hrun, hlogs⟩ := resume_fallback env
    { w with trace := w.trace ++ [.notifierStart, .llmCall] } hllm
  refine ⟨line, logs, ?_, hlogs⟩
  rw [notifier_run, hrun]
  simp

theorem smsCalls_summary_events (p m : String) {logs : List Event} (h : consoleOnly logs) :
    smsCalls (.notifierStart :: .llmCall :: .smsCall p m :: logs) = [(p, m)] := by
  have hl := smsCalls_consoleOnly h
  simp only [smsCalls, List.filterMap_cons] at hl ⊢
  simp [hl]

theorem smsCalls_fallback_events (p m line : String) {logs : List Event} (h : consoleOnly logs) :
    smsCalls (.notifierStart :: .llmCall :: .consoleError line :: .smsCall p m :: logs)
      = [(p, m)] := by
  have hl := smsCalls_consoleOnly h
  simp only [smsCalls, List.filterMap_cons] at hl ⊢
  simp [hl]

/-! ## The claims -/

/-- C1 as stated fails on three inputs with unique dates and a valid date.
A text value with U+0000 is refused, an exhausted sequence delivers no id, and
a sequence whose next value is a stored id breaks the primary key: each time
the upsert fails and the store holds no row of the submitted date. -/
theorem upsert_can_store_nothing :
    (UniqueDates emptyDb.rows ∧ (nulLog (.valid june1)).date = .valid june1 ∧
      upsert 0 (values (nulLog (.valid june1))) emptyDb
        = (.error invalidByteSequence, emptyDb) ∧
      ((upsert 0 (values (nulLog (.valid june1))) emptyDb).2.rows.filter
        (fun r => r.date = june1)).length = 0) ∧
    (UniqueDates exhaustedDb.rows ∧ (sampleLog (.valid june2) none).date = .valid june2 ∧
      upsert 0 (values (sampleLog (.valid june2) none)) exhaustedDb
        = (.error sequenceExhausted, exhaustedDb) ∧
      ((upsert 0 (values (sampleLog (.valid june2) none)) exhaustedDb).2.rows.filter
        (fun r => r.date = june2)).length = 0) ∧
    (UniqueDates staleDb.rows ∧
      (upsert 0 (values (sampleLog (.valid june2) none)) staleDb).1
        = .error primaryKeyViolation ∧
      ((upsert 0 (values (sampleLog (.valid june2) none)) staleDb).2.rows.filter
        (fun r => r.date = june2)).length = 0) :=
  ⟨⟨by decide, rfl, rfl, by decide⟩, ⟨by decide, rfl, rfl, by decide⟩,
    ⟨by decide, rfl, by decide⟩⟩

/-- C1, amended: for a store with unique dates whose id sequence is not
exhausted and is ahead of every stored id, and a submitted log with a valid
date `d` and no U+0000 in its text, the upsert succeeds, the store afterwards
again has unique dates and exactly one row of date `d`, and the number of rows
grows by one when `d` was absent and stays the same when `d` was present. -/
theorem upsert_one_row_per_date (now : Int) (body : LogData) (d : Date) (db : Db)
    (hdate : body.date = .valid d) (htext : refusedText (values body) = false)
    (hseq : db.nextId ≤ maxSerial) (hahead : SeqAhead db) (huniq : UniqueDates db.rows) :
    (∃ i, (upsert now (values body) db).1 = .ok i) ∧
    UniqueDates (upsert now (values body) db).2.rows ∧
    ((upsert now (values body) db).2.rows.filter (fun r => r.date = d)).length = 1 ∧
    ((∀ r ∈ db.rows, r.date ≠ d) →
      (upsert now (values body) db).2.rows.length = db.rows.length + 1) ∧
    ((∃ r ∈ db.rows, r.date = d) →
      (upsert now (values body) db).2.rows.length = db.rows.length) := by
  refine ⟨?_, upsert_uniqueDates now (values body) db huniq, ?_⟩
  · obtain ⟨i, _, hi, _⟩ := upsert_valid now body d db hdate htext hseq hahead
    exact ⟨i, hi⟩
  by_cases hpres : ∃ r ∈ db.rows, r.date = d
  · obtain ⟨pre, r, post_, hsplit, hpre, hr, hrun⟩ :=
      upsert_present now body d db hdate htext hseq hpres
    have hpost : ∀ x ∈ post_, x.date ≠ d := by
      rw [hsplit] at huniq
      rw [← hr]
      exact (uniqueDates_split huniq).2
    refine ⟨?_, ?_, ?_⟩
    · rw [hrun]
      simp only
      rw [filter_date_split hpre hpost (by rw [doUpdateSet_date, hr])]
      rfl
    · intro habs
      obtain ⟨x, hx, hxd⟩ := hpres
      exact absurd hxd (habs x hx)
    · intro _
      rw [hrun, hsplit]
      simp
  · have habs : ∀ r ∈ db.rows, r.date ≠ d := fun r hr hrd => hpres ⟨r, hr, hrd⟩
    have hrun := upsert_absent now body d db hdate htext hseq (fresh_of_seqAhead hahead) habs
    refine ⟨?_, ?_, ?_⟩
    · rw [hrun]
      simp only
      rw [List.filter_append, filter_date_absent habs]
      simp [insertTuple]
    · intro _
      rw [hrun]
      simp
    · intro h
      exact absurd h hpres

/-- C1, amended, on both arms: at the sample store, which holds the first of
June, a log for the first of June leaves one row, and a log for the second of
June makes two. -/
theorem upsert_one_row_per_date_witness :
    (UniqueDates sampleDb.rows ∧ SeqAhead sampleDb ∧ sampleDb.nextId ≤ maxSerial ∧
      refusedText (values (sampleLog (.valid june1) (some "50kg"))) = false ∧
      refusedText (values (sampleLog (.valid june2) (some "50kg"))) = false) ∧
    ((∃ r ∈ sampleDb.rows, r.date = june1) ∧
      ((upsert 0 (values (sampleLog (.valid june1) (some "50kg"))) sampleDb).2.rows.filter
        (fun r => r.date = june1)).length = 1 ∧
      (upsert 0 (values (sampleLog (.valid june1) (some "50kg"))) sampleDb).2.rows.length
        = sampleDb.rows.length) ∧
    ((∀ r ∈ sampleDb.rows, r.date ≠ june2) ∧
      UniqueDates (upsert 0 (values (sampleLog (.valid june2) (some "50kg"))) sampleDb).2.rows ∧
      ((upsert 0 (values (sampleLog (.valid june2) (some "50kg"))) sampleDb).2.rows.filter
        (fun r => r.date = june2)).length = 1 ∧
      (upsert 0 (values (sampleLog (.valid june2) (some "50kg"))) sampleDb).2.rows.length
        = sampleDb.rows.length + 1) :=
  ⟨⟨by decide, by decide, by decide, by decide, by decide⟩,
    ⟨by decide,
      (upsert_one_row_per_date 0 (sampleLog (.valid june1) (some "50kg")) june1 sampleDb rfl
        (by decide) (by decide) (by decide) (by decide)).2.2.1,
      (upsert_one_row_per_date 0 (sampleLog (.valid june1) (some "50kg")) june1 sampleDb rfl
        (by decide) (by decide) (by decide) (by decide)).2.2.2.2 (by decide)⟩,
    ⟨by decide,
      (upsert_one_row_per_date 0 (sampleLog (.valid june2) (some "50kg")) june2 sampleDb rfl
        (by decide) (by decide) (by decide) (by decide)).2.1,
      (upsert_one_row_per_date 0 (sampleLog (.valid june2) (some "50kg")) june2 sampleDb rfl
        (by decide) (by decide) (by decide) (by decide)).2.2.1,
      (upsert_one_row_per_date 0 (sampleLog (.valid june2) (some "50kg")) june2 sampleDb rfl
        (by decide) (by decide) (by decide) (by decide)).2.2.2.1 (by decide)⟩⟩

/-- C2 as stated fails: with the row of the first of June stored, a log for
that date whose planned harvest holds U+0000 is refused, the response is a
failure and the row keeps its old planned harvest; the same happens to any log
for that date once the sequence is exhausted. -/
theorem upsert_can_keep_old_row :
    (UniqueDates sampleDb.rows ∧ sampleRow ∈ sampleDb.rows ∧ sampleRow.date = june1 ∧
      (nulLog (.valid june1)).date = .valid june1 ∧
      upsert 0 (values (nulLog (.valid june1))) sampleDb
        = (.error invalidByteSequence, sampleDb) ∧
      sampleRow.plan_harvest ≠ (nulLog (.valid june1)).plan_harvest ∧
      responses (post (sampleEnv (.error "timeout") smsRefused) (nulLog (.valid june1))
        sampleDb).trace = [.error 500 invalidByteSequence]) ∧
    (UniqueDates exhaustedDb.rows ∧ sampleRow ∈ exhaustedDb.rows ∧
      upsert 0 (values (sampleLog (.valid june1) none)) exhaustedDb
        = (.error sequenceExhausted, exhaustedDb) ∧
      sampleRow.plan_harvest ≠ (sampleLog (.valid june1) none).plan_harvest) :=
  ⟨⟨by decide, by decide, rfl, rfl, rfl, by decide, by decide⟩,
    ⟨by decide, by decide, rfl, by decide⟩⟩

/-- C2, amended: when the store (with unique dates and a sequence that is not
exhausted) holds a row `r` of date `d` and a log of date `d` with no U+0000 in
its text is submitted, the one row of date `d` afterwards carries in each of
the 24 content columns the value the log supplies (null when it supplies
none), keeps the id and `created_at` of `r`, and the response carries `r.id`;
a further such POST for the same date answers with the same id, and so do any
two sequential such POSTs for one date. -/
theorem upsert_overwrites_content (now : Int) (body : LogData) (d : Date) (db : Db) (r : Row)
    (hdate : body.date = .valid d) (htext : refusedText (values body) = false)
    (hseq : db.nextId ≤ maxSerial) (huniq : UniqueDates db.rows)
    (hr : r ∈ db.rows) (hrd : r.date = d) :
    (∃ r', (upsert now (values body) db).2.rows.filter (fun x => x.date = d) = [r'] ∧
      r'.content = body.content ∧ r'.id = r.id ∧ r'.created_at = r.created_at) ∧
    (upsert now (values body) db).1 = .ok r.id ∧
    (∀ env : Env, env.now = now → env.dbFault = none →
      responses (post env body db).trace = [.success r.id] ∧
      ∀ (env2 : Env) (body2 : LogData), body2.date = .valid d →
        refusedText (values body2) = false → db.nextId + 1 ≤ maxSerial →
        env2.dbFault = none →
        responses (post env2 body2 (post env body db).db).trace = [.success r.id]) ∧
    (∀ (db0 : Db) (env1 env2 : Env) (body1 body2 : LogData), UniqueDates db0.rows →
      SeqAhead db0 → db0.nextId + 1 ≤ maxSerial →
      body1.date = .valid d → body2.date = .valid d →
      refusedText (values body1) = false → refusedText (values body2) = false →
      env1.dbFault = none → env2.dbFault = none →
      ∃ i, responses (post env1 body1 db0).trace = [.success i] ∧
        responses (post env2 body2 (post env1 body1 db0).db).trace = [.success i]) := by
  have key : ∀ (now0 : Int) (b : LogData) (db1 : Db) (r1 : Row), b.date = .valid d →
      refusedText (values b) = false → db1.nextId ≤ maxSerial →
      UniqueDates db1.rows → r1 ∈ db1.rows → r1.date = d →
      (upsert now0 (values b) db1).1 = .ok r1.id ∧
      doUpdateSet (values b) r1 ∈ (upsert now0 (values b) db1).2.rows := by
    intro now0 b db1 r1 hb ht hs hu hr1 hr1d
    obtain ⟨pre, r0, post_, hsplit, _, hr0, hrun⟩ :=
      upsert_present now0 b d db1 hb ht hs ⟨r1, hr1, hr1d⟩
    have hr0mem : r0 ∈ db1.rows := by
      rw [hsplit]
      simp
    have heq : r0 = r1 := uniqueDates_eq_of_mem hu hr0mem hr1 (by rw [hr0, hr1d])
    subst heq
    rw [hrun]
    simp
  have hpost : ∀ (env : Env) (b : LogData) (db1 : Db) (r1 : Row), b.date = .valid d →
      refusedText (values b) = false → db1.nextId ≤ maxSerial →
      UniqueDates db1.rows → r1 ∈ db1.rows → r1.date = d → env.dbFault = none →
      responses (post env b db1).trace = [.success r1.id] ∧
      (post env b db1).db = (upsert env.now (values b) db1).2 := by
    intro env b db1 r1 hb ht hs hu hr1 hr1d hf
    have hw : (dbWrite env b db1).1 = .ok r1.id := by
      rw [dbWrite_run env b db1 hf]
      exact (key env.now b db1 r1 hb ht hs hu hr1 hr1d).1
    obtain ⟨h1, h2, _⟩ := post_ok env b db1 r1.id hw
    refine ⟨h1, ?_⟩
    rw [h2, dbWrite_run env b db1 hf]
  obtain ⟨hres, hmem⟩ := key now body db r hdate htext hseq huniq hr hrd
  have huniq' := upsert_uniqueDates now (values body) db huniq
  refine ⟨⟨doUpdateSet (values body) r, ?_, rfl, rfl, rfl⟩, hres, ?_, ?_⟩
  · have := filter_date_present huniq' hmem
    rwa [doUpdateSet_date, hrd] at this
  · intro env hnow hf
    obtain ⟨h1, h2⟩ := hpost env body db r hdate htext hseq huniq hr hrd hf
    refine ⟨h1, ?_⟩
    intro env2 body2 hb2 ht2 hs2 hf2
    rw [h2, hnow]
    have hn := upsert_ok_nextId now (values body) db r.id hres
    exact (hpost env2 body2 _ (doUpdateSet (values body) r) hb2 ht2 (by rw [hn]; exact hs2)
      huniq' hmem (by rw [doUpdateSet_date, hrd]) hf2).1
  · intro db0 env1 env2 body1 body2 hu0 ha0 hs0 hb1 hb2 ht1 ht2 hf1 hf2
    obtain ⟨i, r1, hi, hr1, hr1d, hr1i, _⟩ :=
      upsert_valid env1.now body1 d db0 hb1 ht1 (by omega) ha0
    have hw : (dbWrite env1 body1 db0).1 = .ok i := by
      rw [dbWrite_run env1 body1 db0 hf1]
      exact hi
    obtain ⟨h1, h2, _⟩ := post_ok env1 body1 db0 i hw
    refine ⟨i, h1, ?_⟩
    rw [h2, dbWrite_run env1 body1 db0 hf1]
    have hn := upsert_ok_nextId env1.now (values body1) db0 i hi
    have := (hpost env2 body2 _ r1 hb2 ht2 (by rw [hn]; exact hs0)
      (upsert_uniqueDates env1.now (values body1) db0 hu0) hr1 hr1d hf2).1
    rw [hr1i] at this
    exact this

/-- C2, amended, at the sample store: the planned harvest of the stored row is
replaced, a key the new log omits becomes null, id and creation time stay. -/
theorem upsert_overwrites_content_witness :
    UniqueDates sampleDb.rows ∧ sampleRow ∈ sampleDb.rows ∧ sampleRow.date = june1 ∧
    refusedText (values (sampleLog (.valid june1) none)) = false ∧
    sampleDb.nextId ≤ maxSerial ∧
    sampleRow.plan_harvest = some "40kg" ∧
    (∃ r', (upsert 0 (values (sampleLog (.valid june1) none)) sampleDb).2.rows.filter
        (fun x => x.date = june1) = [r'] ∧
      r'.content = (sampleLog (.valid june1) none).content ∧ r'.id = sampleRow.id ∧
      r'.created_at = sampleRow.created_at) ∧
    (upsert 0 (values (sampleLog (.valid june1) none)) sampleDb).1 = .ok sampleRow.id :=
  ⟨by decide, by decide, rfl, by decide, by decide, rfl,
    (upsert_overwrites_content 0 (sampleLog (.valid june1) none) june1 sampleDb sampleRow rfl
      (by decide) (by decide) (by decide) (by decide) rfl).1,
    (upsert_overwrites_content 0 (sampleLog (.valid june1) none) june1 sampleDb sampleRow rfl
      (by decide) (by decide) (by decide) (by decide) rfl).2.1⟩

/-- C3: the response of `POST /api/logs` is `{success: true, id: i}` when the
write succeeded with id `i` and a 500 failure with the message of `e` when the
write failed with `e`; it does not change with the behaviour of the
text-generation and SMS services, and any two runs with the same outcome of
the write send the same response. -/
theorem post_response_from_write (env : Env) (body : LogData) (db : Db) :
    (∀ i, (dbWrite env body db).1 = .ok i →
      responses (post env body db).trace = [.success i]) ∧
    (∀ e, (dbWrite env body db).1 = .error e →
      responses (post env body db).trace = [.error 500 e]) ∧
    (∀ (llm : Except String Message) (sms : Nat → Except String FetchResponse),
      (dbWrite { env with llm := llm, sms := sms } body db).1 = (dbWrite env body db).1 ∧
      responses (post { env with llm := llm, sms := sms } body db).trace =
        responses (post env body db).trace) ∧
    (∀ (env2 : Env) (body2 : LogData) (db2 : Db),
      (dbWrite env2 body2 db2).1 = (dbWrite env body db).1 →
      responses (post env2 body2 db2).trace = responses (post env body db).trace) := by
  have hsame : ∀ (env2 : Env) (body2 : LogData) (db2 : Db),
      (dbWrite env2 body2 db2).1 = (dbWrite env body db).1 →
      responses (post env2 body2 db2).trace = responses (post env body db).trace := by
    intro env2 body2 db2 h
    cases hw : (dbWrite env body db).1 with
    | ok i =>
      rw [(post_ok env body db i hw).1, (post_ok env2 body2 db2 i (h.trans hw)).1]
    | error e =>
      rw [(post_error env body db e hw).1, (post_error env2 body2 db2 e (h.trans hw)).1]
  refine ⟨fun i h => (post_ok env body db i h).1, fun e h => (post_error env body db e h).1,
    ?_, hsame⟩
  intro llm sms
  have hw : (dbWrite { env with llm := llm, sms := sms } body db).1 = (dbWrite env body db).1 := by
    rcases Option.eq_none_or_eq_some env.dbFault with hf | ⟨e, hf⟩
    · rw [dbWrite_run env body db hf, dbWrite_run { env with llm := llm, sms := sms } body db hf]
    · rw [dbWrite_fault env body db e hf,
        dbWrite_fault { env with llm := llm, sms := sms } body db e hf]
  exact ⟨hw, hsame _ body db hw⟩

/-- C3 at the sample store: the write succeeds with id 1 and the response
carries it, with a working and with a failing summarization alike. -/
theorem post_response_from_write_witness :
    (dbWrite (sampleEnv (.error "timeout") smsRefused)
      (sampleLog (.valid june1) (some "50kg")) sampleDb).1 = .ok 1 ∧
    responses (post (sampleEnv (.error "timeout") smsRefused)
      (sampleLog (.valid june1) (some "50kg")) sampleDb).trace = [.success 1] :=
  ⟨rfl,
    (post_response_from_write (sampleEnv (.error "timeout") smsRefused)
      (sampleLog (.valid june1) (some "50kg")) sampleDb).1 1 rfl⟩

/-- C4 as stated fails: when the generated message has a first content block
without text, nothing is thrown, and the SMS carries the header followed by
`undefined`, not the fallback text. -/
theorem no_text_block_skips_fallback :
    smsCalls (runRequest
        (analyzeDayAndSendText (sampleEnv (.ok (sampleMessage none)) smsAccepted)
          (sampleLog (.valid june1) (some "50kg")))
        (World.init sampleDb)).trace
      = [("2132215504", "702Greens Daily Log\n\nundefined")] ∧
    "702Greens Daily Log\n\nundefined" ≠ fallbackText := by
  decide

/-- C4, amended: when the text-generation call rejects, or the message it
resolves to has no content or an empty list of content blocks (so that reading
`content[0].text` throws), the SMS step still runs, once, and the text handed
to `sendCloseMessage` is the fixed fallback message. -/
theorem fallback_on_thrown_failure (env : Env) (logData : LogData) (w : World)
    (hfail : (∃ e, env.llm = .error e) ∨ env.llm = .ok ⟨none⟩ ∨ env.llm = .ok ⟨some []⟩) :
    ∃ evs, (runRequest (analyzeDayAndSendText env logData) w).trace = w.trace ++ evs ∧
      smsCalls evs = [(YOUR_PHONE env, fallbackText)] := by
  obtain ⟨line, logs, hrun, hlogs⟩ := notifier_fallback env logData w hfail
  rw [hrun]
  exact ⟨_, rfl, smsCalls_fallback_events _ _ _ hlogs⟩

/-- C4, amended, at a summarization that times out and one that returns no
content blocks. -/
theorem fallback_on_thrown_failure_witness :
    (∃ evs, (runRequest (analyzeDayAndSendText (sampleEnv (.error "timeout") smsAccepted)
        (sampleLog (.valid june1) (some "50kg"))) (World.init sampleDb)).trace
          = (World.init sampleDb).trace ++ evs ∧
      smsCalls evs = [(YOUR_PHONE (sampleEnv (.error "timeout") smsAccepted), fallbackText)]) ∧
    (∃ evs, (runRequest (analyzeDayAndSendText (sampleEnv (.ok ⟨some []⟩) smsRefused)
        (sampleLog (.valid june1) (some "50kg"))) (World.init sampleDb)).trace
          = (World.init sampleDb).trace ++ evs ∧
      smsCalls evs = [(YOUR_PHONE (sampleEnv (.ok ⟨some []⟩) smsRefused), fallbackText)]) :=
  ⟨fallback_on_thrown_failure (sampleEnv (.error "timeout") smsAccepted)
      (sampleLog (.valid june1) (some "50kg")) (World.init sampleDb) (.inl ⟨"timeout", rfl⟩),
    fallback_on_thrown_failure (sampleEnv (.ok ⟨some []⟩) smsRefused)
      (sampleLog (.valid june1) (some "50kg")) (World.init sampleDb) (.inr (.inr rfl))⟩

/-- C5: with a reachable database and a store with unique dates,
`GET /api/logs` answers with the rows of `selectRecent`: at most 30 of them,
exactly `min 30 n`, with strictly decreasing dates, all of them stored rows,
each with a date greater than that of every stored row left out; for the empty
store the answer is the empty sequence. -/
theorem getLogs_most_recent (env : Env) (db : Db) (hfault : env.dbFault = none)
    (huniq : UniqueDates db.rows) :
    responses (getLogs env (World.init db)).2.trace = [.rows (selectRecent db)] ∧
    (selectRecent db).length ≤ 30 ∧
    (selectRecent db).length = min 30 db.rows.length ∧
    (selectRecent db).Pairwise (fun a b => b.date < a.date) ∧
    (∀ r ∈ selectRecent db, r ∈ db.rows) ∧
    (∀ r ∈ selectRecent db, ∀ o ∈ db.rows, o ∉ selectRecent db → o.date < r.date) ∧
    (db.rows = [] → responses (getLogs env (World.init db)).2.trace = [.rows []]) := by
  have hperm : (db.rows.insertionSort dateDesc).Perm db.rows := List.perm_insertionSort _ _
  haveI htotal : IsTotal Row dateDesc := ⟨fun a b => Date.le_total b.date a.date⟩
  haveI htrans : IsTrans Row dateDesc := ⟨fun _ _ _ hab hbc => Date.le_trans hbc hab⟩
  have hsorted : (db.rows.insertionSort dateDesc).Pairwise dateDesc :=
    List.sorted_insertionSort dateDesc db.rows
  have huniq' : (db.rows.insertionSort dateDesc).Pairwise (fun a b => a.date ≠ b.date) :=
    (hperm.pairwise_iff (fun hxy => Ne.symm hxy)).mpr huniq
  have hstrict : (db.rows.insertionSort dateDesc).Pairwise (fun a b => b.date < a.date) :=
    (hsorted.and huniq').imp (fun h => Date.lt_of_le_of_ne h.1 (Ne.symm h.2))
  have hresp : responses (getLogs env (World.init db)).2.trace = [.rows (selectRecent db)] := by
    rw [getLogs_run env db hfault]
    rfl
  refine ⟨hresp, ?_, ?_, ?_, ?_, ?_, ?_⟩
  · simp [selectRecent, List.length_take]
  · simp [selectRecent, List.length_take, hperm.length_eq]
  · exact hstrict.sublist (List.take_sublist _ _)
  · intro r hr
    exact hperm.subset (List.mem_of_mem_take hr)
  · intro r hr o ho hnot
    have hsplit := List.take_append_drop 30 (db.rows.insertionSort dateDesc)
    have ho' : o ∈ (db.rows.insertionSort dateDesc).drop 30 := by
      have : o ∈ (db.rows.insertionSort dateDesc).take 30 ++
          (db.rows.insertionSort dateDesc).drop 30 := by
        rw [hsplit]
        exact hperm.mem_iff.mpr ho
      rcases List.mem_append.mp this with h | h
      · exact absurd h hnot
      · exact h
    rw [← hsplit, List.pairwise_append] at hstrict
    exact hstrict.2.2 r hr o ho'
  · intro hempty
    rw [hresp]
    simp [selectRecent, hempty]

/-- C5 at a store of 35 rows in scrambled order: 30 rows come back, newest
first, and the five oldest (ids 28, 30, 32, 34 and 1) are left out. -/
theorem getLogs_most_recent_witness :
    ((sampleEnv (.error "timeout") smsRefused).dbFault = none ∧ UniqueDates bigDb.rows ∧
      bigDb.rows.length = 35 ∧
      bigDb.rows.map Row.id = List.range' 1 35 ∧
      (selectRecent bigDb).map Row.id =
        [3, 5, 7, 9, 11, 13, 15, 17, 19, 21, 23, 25, 27, 29, 31, 33, 35, 2, 4, 6, 8, 10, 12,
          14, 16, 18, 20, 22, 24, 26]) ∧
    responses (getLogs (sampleEnv (.error "timeout") smsRefused) (World.init bigDb)).2.trace
      = [.rows (selectRecent bigDb)] ∧
    (selectRecent bigDb).length ≤ 30 ∧
    (selectRecent bigDb).length = min 30 bigDb.rows.length ∧
    (selectRecent bigDb).Pairwise (fun a b => b.date < a.date) ∧
    (∀ r ∈ selectRecent bigDb, r ∈ bigDb.rows) ∧
    (∀ r ∈ selectRecent bigDb, ∀ o ∈ bigDb.rows, o ∉ selectRecent bigDb → o.date < r.date) ∧
    (bigDb.rows = [] →
      responses (getLogs (sampleEnv (.error "timeout") smsRefused) (World.init bigDb)).2.trace
        = [.rows []]) :=
  ⟨⟨rfl, by decide, by decide, by decide, by decide⟩,
    getLogs_most_recent (sampleEnv (.error "timeout") smsRefused) bigDb rfl (by decide)⟩

/-- C6 as stated fails. At 2024-06-02T02:00:00Z on a server seven hours
behind UTC the local calendar date is the first of June, the store holds the
row of the first of June, and `GET /api/logs/today` answers `null`: it looks
up the UTC date, the second of June. And at the first instant of the year
10000, as at the first instant of the year 0000, the text of the date is one
the database refuses, and the answer is a failure, not a row or `null`. -/
theorem getToday_ignores_time_zone :
    (localDate (sampleEnv (.error "timeout") smsRefused).tzOffset
        (sampleEnv (.error "timeout") smsRefused).now = june1 ∧
      sampleRow ∈ sampleDb.rows ∧ sampleRow.date = june1 ∧
      responses (getToday (sampleEnv (.error "timeout") smsRefused)
        (World.init sampleDb)).2.trace = [.row none]) ∧
    (toISODate 253402300800000 = "+010000-01-01" ∧
      ∃ e, responses (getToday
        { sampleEnv (.error "timeout") smsRefused with now := 253402300800000 }
        (World.init sampleDb)).2.trace = [.error 500 e]) ∧
    (toISODate (-62167219200000) = "0000-01-01" ∧
      ∃ e, responses (getToday
        { sampleEnv (.error "timeout") smsRefused with now := -62167219200000 }
        (World.init sampleDb)).2.trace = [.error 500 e]) :=
  ⟨by decide, ⟨by decide, _, rfl⟩, ⟨by decide, _, rfl⟩⟩

/-- C6, amended: with a reachable database and a store with unique dates, at
an instant `env.now` whose UTC year lies between 1 and 9999,
`GET /api/logs/today` answers with the stored row whose date is the calendar
date of that instant in UTC, whatever the time zone of the server, and with
`null` when there is no such row; in particular a log whose POST with date `D`
succeeded is returned whenever the UTC date is `D`. -/
theorem getToday_utc_date (env : Env) (db : Db) (hfault : env.dbFault = none)
    (huniq : UniqueDates db.rows)
    (hyear : 1 ≤ (utcDate env.now).year ∧ (utcDate env.now).year ≤ 9999) :
    (∀ r ∈ db.rows, r.date = utcDate env.now →
      responses (getToday env (World.init db)).2.trace = [.row (some r)]) ∧
    ((∀ r ∈ db.rows, r.date ≠ utcDate env.now) →
      responses (getToday env (World.init db)).2.trace = [.row none]) ∧
    (∀ (envP : Env) (body : LogData) (i : Nat), body.date = .valid (utcDate env.now) →
      responses (post envP body db).trace = [.success i] →
      ∃ r, responses (getToday env (World.init (post envP body db).db)).2.trace
          = [.row (some r)] ∧
        r.date = utcDate env.now ∧ r.id = i ∧ r.content = body.content) := by
  have hfound : ∀ (db1 : Db) (r : Row), UniqueDates db1.rows → r ∈ db1.rows →
      r.date = utcDate env.now →
      responses (getToday env (World.init db1)).2.trace = [.row (some r)] := by
    intro db1 r hu hr hrd
    rw [getToday_run env db1 hfault hyear, ← hrd, filter_date_present hu hr]
    rfl
  refine ⟨fun r hr hrd => hfound db r huniq hr hrd, ?_, ?_⟩
  · intro habs
    rw [getToday_run env db hfault hyear, filter_date_absent habs]
    rfl
  · intro envP body i hb hresp
    have hw := post_success_write envP body db i hresp
    obtain ⟨hf, hi⟩ := dbWrite_ok_upsert envP body db i hw
    obtain ⟨r, hr, hrd, hri, hrc⟩ := upsert_ok_stored envP.now body _ db i hb hi
    obtain ⟨_, hdb, _⟩ := post_ok envP body db i hw
    rw [hdb, dbWrite_run envP body db hf]
    exact ⟨r, hfound _ r (upsert_uniqueDates envP.now (values body) db huniq) hr hrd,
      hrd, hri, hrc⟩

/-- C6, amended, at 2024-06-01T02:00:00Z on the server seven hours behind UTC
(where it is still the 31st of May): the stored row of the first of June is
returned, and so is a log for the first of June POSTed to the empty store. -/
theorem getToday_utc_date_witness :
    (UniqueDates sampleDb.rows ∧ sampleRow ∈ sampleDb.rows ∧
      sampleRow.date = utcDate 1717207200000 ∧ (utcDate 1717207200000).year = 2024 ∧
      localDate (-25200000) 1717207200000 = { year := 2024, month := 5, day := 31 } ∧
      responses (post (sampleEnv (.error "timeout") smsRefused)
        (sampleLog (.valid june1) (some "50kg")) emptyDb).trace = [.success 1]) ∧
    responses (getToday { sampleEnv (.error "timeout") smsRefused with now := 1717207200000 }
      (World.init sampleDb)).2.trace = [.row (some sampleRow)] ∧
    (∃ r, responses (getToday
        { sampleEnv (.error "timeout") smsRefused with now := 1717207200000 }
        (World.init (post (sampleEnv (.error "timeout") smsRefused)
          (sampleLog (.valid june1) (some "50kg")) emptyDb).db)).2.trace = [.row (some r)] ∧
      r.date = utcDate 1717207200000 ∧ r.id = 1 ∧
      r.content = (sampleLog (.valid june1) (some "50kg")).content) :=
  ⟨⟨by decide, by decide, by decide, by decide, by decide, by decide⟩,
    (getToday_utc_date { sampleEnv (.error "timeout") smsRefused with now := 1717207200000 }
      sampleDb rfl (by decide) (by decide)).1 sampleRow (by decide) (by decide),
    (getToday_utc_date { sampleEnv (.error "timeout") smsRefused with now := 1717207200000 }
      emptyDb rfl (by decide) (by decide)).2.2 (sampleEnv (.error "timeout") smsRefused)
      (sampleLog (.valid june1) (some "50kg")) 1 (by decide) (by decide)⟩

/-- C7 as stated fails: when the summarization fails, the body of the SMS is
the fallback text alone, which does not begin with the header
`702Greens Daily Log` and a blank line. -/
theorem fallback_sms_lacks_header :
    smsCalls (runRequest
        (analyzeDayAndSendText (sampleEnv (.error "timeout") smsAccepted)
          (sampleLog (.valid june1) (some "50kg")))
        (World.init sampleDb)).trace
      = [("2132215504", fallbackText)] ∧
    ¬ ∃ rest : String, fallbackText = farmHeader ++ rest := by
  refine ⟨by decide, ?_⟩
  rintro ⟨rest, h⟩
  have h2 := congrArg String.data h
  rw [String.data_append] at h2
  have h3 := congrArg List.head? h2
  have hd : farmHeader.data = '7' :: farmHeader.data.tail := by decide
  rw [hd, List.cons_append, List.head?_cons] at h3
  revert h3
  decide

/-- C7, amended: every invocation of the notifier makes its SMS call to the
configured number `YOUR_PHONE`, whatever the log holds; when the first content
block of the generated message is read without error the body is the header
`702Greens Daily Log`, a blank line and the text of that block, and when the
summarization fails by throwing the body is the fallback text without the
header. -/
theorem sms_body_and_destination (env : Env) (logData : LogData) (w : World) :
    ∃ evs body, (runRequest (analyzeDayAndSendText env logData) w).trace = w.trace ++ evs ∧
      smsCalls evs = [(YOUR_PHONE env, body)] ∧
      (∀ block rest, env.llm = .ok ⟨some (block :: rest)⟩ →
        body = farmHeader ++ interpolate block.text) ∧
      (((∃ e, env.llm = .error e) ∨ env.llm = .ok ⟨none⟩ ∨ env.llm = .ok ⟨some []⟩) →
        body = fallbackText) := by
  rcases llm_cases env.llm with hfail | ⟨block, rest, hllm⟩
  · obtain ⟨line, logs, hrun, hlogs⟩ := notifier_fallback env logData w hfail
    rw [hrun]
    refine ⟨_, fallbackText, rfl, smsCalls_fallback_events _ _ _ hlogs, ?_, fun _ => rfl⟩
    intro block rest hllm
    rcases hfail with ⟨e, he⟩ | he | he <;> rw [he] at hllm <;> cases hllm
  · obtain ⟨logs, hrun, hlogs⟩ := notifier_summary env logData w block rest hllm
    rw [hrun]
    refine ⟨_, _, rfl, smsCalls_summary_events _ _ hlogs, ?_, ?_⟩
    · intro block2 rest2 hllm2
      rw [hllm] at hllm2
      cases hllm2
      rfl
    · intro hfail
      rcases hfail with ⟨e, he⟩ | he | he <;> rw [he] at hllm <;> cases hllm

/-- C7, amended, at a summarization that answers "All good". -/
theorem sms_body_and_destination_witness :
    (sampleEnv (.ok (sampleMessage (some "All good"))) smsAccepted).llm
      = .ok ⟨some [{ text := some "All good" }]⟩ ∧
    ∃ evs body, (runRequest
        (analyzeDayAndSendText (sampleEnv (.ok (sampleMessage (some "All good"))) smsAccepted)
          (sampleLog (.valid june1) (some "50kg")))
        (World.init sampleDb)).trace = (World.init sampleDb).trace ++ evs ∧
      smsCalls evs
        = [(YOUR_PHONE (sampleEnv (.ok (sampleMessage (some "All good"))) smsAccepted), body)] ∧
      body = farmHeader ++ interpolate (some "All good") := by
  refine ⟨rfl, ?_⟩
  obtain ⟨evs, body, h1, h2, h3, _⟩ :=
    sms_body_and_destination (sampleEnv (.ok (sampleMessage (some "All good"))) smsAccepted)
      (sampleLog (.valid june1) (some "50kg")) (World.init sampleDb)
  exact ⟨evs, body, h1, h2, h3 _ _ rfl⟩

/-- C8: in the trace of a POST request every notifier event (the start of the
notifier, the summarization call, an SMS call) comes after the event that
settles the database write as a success, and the write did succeed; when the
write fails the trace holds no notifier event at all. -/
theorem notifier_only_after_successful_write (env : Env) (body : LogData) (db : Db) :
    (∀ (pre post_ : List Event) (ev : Event),
      (post env body db).trace = pre ++ ev :: post_ → ev.isNotifier = true →
      Event.dbSettled true ∈ pre ∧ Event.dbSettled false ∉ (post env body db).trace ∧
        ∃ i, (dbWrite env body db).1 = .ok i) ∧
    (∀ e, (dbWrite env body db).1 = .error e →
      ∀ ev ∈ (post env body db).trace, ev.isNotifier = false) := by
  refine ⟨?_, fun e h => (post_error env body db e h).2.2⟩
  intro pre post_ ev htrace hev
  cases hw : (dbWrite env body db).1 with
  | error e =>
    have hmem : ev ∈ (post env body db).trace := by
      rw [htrace]
      simp
    rw [(post_error env body db e hw).2.2 ev hmem] at hev
    cases hev
  | ok i =>
    obtain ⟨pre2, text, logs, hrun, hpre2, hlogs⟩ := post_of_write_ok env body db i hw
    refine ⟨?_, ?_, i, rfl⟩
    · rw [hrun] at htrace
      exact settled_before_notifier htrace hev
    · rw [hrun]
      intro hmem
      simp only [List.cons_append, List.nil_append, List.mem_cons, List.mem_append] at hmem
      rcases hmem with h | h | h | h | h | h | h | h
      · cases h
      · cases h
      · cases h
      · cases h
      · cases h
      · obtain ⟨line, hl⟩ := hpre2 _ h
        cases hl
      · cases h
      · obtain ⟨line, hl⟩ := hlogs _ h
        cases hl

/-- C8 at a request whose date is missing: the write fails and the trace has
no notifier event. -/
theorem notifier_only_after_successful_write_witness :
    (dbWrite (sampleEnv (.ok (sampleMessage (some "All good"))) smsAccepted)
      (sampleLog .missing (some "50kg")) sampleDb).1 = .error notNullViolation ∧
    ∀ ev ∈ (post (sampleEnv (.ok (sampleMessage (some "All good"))) smsAccepted)
      (sampleLog .missing (some "50kg")) sampleDb).trace, ev.isNotifier = false :=
  ⟨rfl,
    (notifier_only_after_successful_write
      (sampleEnv (.ok (sampleMessage (some "All good"))) smsAccepted)
      (sampleLog .missing (some "50kg")) sampleDb).2 notNullViolation rfl⟩

/-- C9 as stated fails: a body with a valid date whose planned harvest holds
U+0000 is answered with a failure and nothing is stored, although the database
is reachable; so is any body with a valid date once the sequence is exhausted,
and a body with a new date when the next value of the sequence is a stored
id. -/
theorem post_with_valid_date_can_fail :
    ((sampleEnv (.error "timeout") smsRefused).dbFault = none ∧
      (nulLog (.valid june2)).date = .valid june2 ∧
      responses (post (sampleEnv (.error "timeout") smsRefused) (nulLog (.valid june2))
        emptyDb).trace = [.error 500 invalidByteSequence] ∧
      (post (sampleEnv (.error "timeout") smsRefused) (nulLog (.valid june2))
        emptyDb).db.rows = []) ∧
    (responses (post (sampleEnv (.error "timeout") smsRefused)
        (sampleLog (.valid june2) none) exhaustedDb).trace = [.error 500 sequenceExhausted] ∧
      (post (sampleEnv (.error "timeout") smsRefused) (sampleLog (.valid june2) none)
        exhaustedDb).db.rows = exhaustedDb.rows) ∧
    (responses (post (sampleEnv (.error "timeout") smsRefused)
        (sampleLog (.valid june2) none) staleDb).trace = [.error 500 primaryKeyViolation] ∧
      (post (sampleEnv (.error "timeout") smsRefused) (sampleLog (.valid june2) none)
        staleDb).db.rows = staleDb.rows) :=
  ⟨⟨rfl, rfl, by decide, by decide⟩, ⟨by decide, by decide⟩, ⟨by decide, by decide⟩⟩

/-- C9, amended: a body without a date is answered with a failure, leaves the
rows of the store as they were and does not start the notifier; a body with a
valid date and no U+0000 in its text succeeds, on a reachable database whose
id sequence is not exhausted and is ahead of every stored id, whichever of the
other 24 keys are present, and the stored row holds each of them as submitted,
null for a missing one. -/
theorem post_requires_only_date (env : Env) (body : LogData) (db : Db) :
    (body.date = .missing →
      (∃ e, responses (post env body db).trace = [.error 500 e]) ∧
      (post env body db).db.rows = db.rows ∧
      ∀ ev ∈ (post env body db).trace, ev.isNotifier = false) ∧
    (∀ d, body.date = .valid d → env.dbFault = none →
      refusedText (values body) = false → db.nextId ≤ maxSerial → SeqAhead db →
      ∃ i r, responses (post env body db).trace = [.success i] ∧
        r ∈ (post env body db).db.rows ∧ r.date = d ∧ r.id = i ∧
        r.content = body.content) := by
  constructor
  · intro hdate
    obtain ⟨⟨e, he⟩, hrows⟩ := dbWrite_db_rows_of_missing env body db hdate
    obtain ⟨h1, h2, h3⟩ := post_error env body db e he
    exact ⟨⟨e, h1⟩, by rw [h2, hrows], h3⟩
  · intro d hdate hf htext hseq hahead
    obtain ⟨i, r, hi, hr, hrd, hri, hrc⟩ := upsert_valid env.now body d db hdate htext hseq hahead
    have hw : (dbWrite env body db).1 = .ok i := by
      rw [dbWrite_run env body db hf]
      exact hi
    obtain ⟨h1, h2, _⟩ := post_ok env body db i hw
    refine ⟨i, r, h1, ?_, hrd, hri, hrc⟩
    rw [h2, dbWrite_run env body db hf]
    exact hr

/-- C9, amended, at the empty store: a body with a date and no planned harvest
is stored, a body without a date changes nothing. -/
theorem post_requires_only_date_witness :
    (refusedText (values (sampleLog (.valid june1) none)) = false ∧
      emptyDb.nextId ≤ maxSerial ∧ SeqAhead emptyDb) ∧
    (post (sampleEnv (.error "timeout") smsRefused) (sampleLog .missing none) emptyDb).db.rows
      = emptyDb.rows ∧
    ∃ i r, responses (post (sampleEnv (.error "timeout") smsRefused)
        (sampleLog (.valid june1) none) emptyDb).trace = [.success i] ∧
      r ∈ (post (sampleEnv (.error "timeout") smsRefused)
        (sampleLog (.valid june1) none) emptyDb).db.rows ∧
      r.date = june1 ∧ r.id = i ∧ r.content = (sampleLog (.valid june1) none).content :=
  ⟨⟨by decide, by decide, by decide⟩,
    ((post_requires_only_date (sampleEnv (.error "timeout") smsRefused)
      (sampleLog .missing none) emptyDb).1 rfl).2.1,
    (post_requires_only_date (sampleEnv (.error "timeout") smsRefused)
      (sampleLog (.valid june1) none) emptyDb).2 june1 rfl rfl (by decide) (by decide)
      (by decide)⟩

/-- C10: `sendCloseMessage` always returns normally, having made one call of
`fetch` and at most written to the console; every invocation of
`analyzeDayAndSendText` returns normally, before and after its first `await`,
and makes exactly one SMS call, whatever the two services do; after a
successful summarization that one call carries the summary, also when the SMS
service fails: the catch branch is not entered and no fallback SMS follows. -/
theorem notifier_sends_one_sms (env : Env) (logData : LogData) (w : World) :
    (∀ (p m : String) (w0 : World), ∃ logs,
      sendCloseMessage env p m w0 =
        (.ok (), { db := w0.db
                   trace := w0.trace ++ .smsCall p m :: logs
                   fetches := w0.fetches + 1 }) ∧
      consoleOnly logs) ∧
    (analyzeDayAndSendText env logData w).1 = .ok (analyzeDayAndSendText.resume env) ∧
    (∀ w1 : World, (analyzeDayAndSendText.resume env w1).1 = .ok ()) ∧
    (∃ evs, (runRequest (analyzeDayAndSendText env logData) w).trace = w.trace ++ evs ∧
      (smsCalls evs).length = 1 ∧
      (runRequest (analyzeDayAndSendText env logData) w).fetches = w.fetches + 1 ∧
      ∀ block rest, env.llm = .ok ⟨some (block :: rest)⟩ →
        smsCalls evs = [(YOUR_PHONE env, farmHeader ++ interpolate block.text)]) := by
  refine ⟨?_, ?_, ?_, ?_⟩
  · intro p m w0
    exact sendCloseMessage_run env p m w0
  · simp [analyzeDayAndSendText]
  · intro w1
    obtain ⟨pre, text, logs, hrun, _, _⟩ := resume_run env w1
    rw [hrun]
  · rcases llm_cases env.llm with hfail | ⟨block, rest, hllm⟩
    · obtain ⟨line, logs, hrun, hlogs⟩ := notifier_fallback env logData w hfail
      rw [hrun]
      refine ⟨_, rfl, by rw [smsCalls_fallback_events _ _ _ hlogs]; rfl, rfl, ?_⟩
      intro block rest hllm
      rcases hfail with ⟨e, he⟩ | he | he <;> rw [he] at hllm <;> cases hllm
    · obtain ⟨logs, hrun, hlogs⟩ := notifier_summary env logData w block rest hllm
      rw [hrun]
      refine ⟨_, rfl, by rw [smsCalls_summary_events _ _ hlogs]; rfl, rfl, ?_⟩
      intro block2 rest2 hllm2
      rw [hllm] at hllm2
      cases hllm2
      exact smsCalls_summary_events _ _ hlogs

/-- C10 at a successful summarization followed by a refused SMS: one call,
with the summary. -/
theorem notifier_sends_one_sms_witness :
    ∃ evs, (runRequest
        (analyzeDayAndSendText (sampleEnv (.ok (sampleMessage (some "All good"))) smsRefused)
          (sampleLog (.valid june1) (some "50kg")))
        (World.init sampleDb)).trace = (World.init sampleDb).trace ++ evs ∧
      (smsCalls evs).length = 1 ∧
      smsCalls evs = [(YOUR_PHONE (sampleEnv (.ok (sampleMessage (some "All good"))) smsRefused),
        farmHeader ++ interpolate (some "All good"))] := by
  obtain ⟨evs, h1, h2, _, h4⟩ :=
    (notifier_sends_one_sms (sampleEnv (.ok (sampleMessage (some "All good"))) smsRefused)
      (sampleLog (.valid june1) (some "50kg")) (World.init sampleDb)).2.2.2
  exact ⟨evs, h1, h2, h4 _ _ rfl⟩

end FarmOS
